import Mathlib

/-!
# STL mesh generator (`assets/meshes/cylinder.cpp`)

A shallow embedding of the mesh generator: the 3D vector algebra, the mesh
container `STL` with `addTriangle` / `addRectangle` / `draw`, and the two
tessellators `Cube` and `Cylinder`.

The definitions are generic in the scalar type `α`, which only has to carry
the operations the source uses (`+`, `-`, `*`, `/`, literals, conversion from
`int`); the `<cmath>` functions the program calls (`sqrt`, `atan`, `cos`,
`sin`) and the stream's number formatter are passed as explicit arguments.
Every definition is therefore computable.  The scalar type of the program is
`double`, IEEE 754 binary64, defined below with its rounding; the theorems
about exact real arithmetic instantiate `α := ℝ` with `Real.sqrt`,
`Real.arctan`, `Real.cos`, `Real.sin`.

The file written by `draw` is embedded as the state of the output stream: a
flag telling whether the stream is usable and the text written so far.
-/

set_option autoImplicit false

/-! ## Vector algebra (source lines 13-27) -/

/-- The `struct vec`: three scalar coordinates. -/
structure vec (α : Type) where
  x : α
  y : α
  z : α
deriving DecidableEq, Repr

namespace vec

variable {α : Type}

/-- The `operator +` on two vectors: componentwise sum. -/
def add [Add α] (a b : vec α) : vec α := ⟨a.x + b.x, a.y + b.y, a.z + b.z⟩

/-- The `operator -` on two vectors: componentwise difference. -/
def sub [Sub α] (a b : vec α) : vec α := ⟨a.x - b.x, a.y - b.y, a.z - b.z⟩

/-- The `operator /` of a vector by a scalar. -/
def div [Div α] (a : vec α) (d : α) : vec α := ⟨a.x / d, a.y / d, a.z / d⟩

/-- The `operator *` of a scalar and a vector. -/
def smul [Mul α] (d : α) (a : vec α) : vec α := ⟨d * a.x, d * a.y, d * a.z⟩

/-- The `operator *` on two vectors: the cross product. -/
def cross [Mul α] [Sub α] (a b : vec α) : vec α :=
  ⟨a.y * b.z - a.z * b.y, a.z * b.x - a.x * b.z, a.x * b.y - a.y * b.x⟩

instance [Add α] : Add (vec α) := ⟨add⟩
instance [Sub α] : Sub (vec α) := ⟨sub⟩
instance [Div α] : HDiv (vec α) α (vec α) := ⟨div⟩
instance [Mul α] : HMul α (vec α) (vec α) := ⟨smul⟩
instance [Mul α] [Sub α] : Mul (vec α) := ⟨cross⟩

/-- Scalar (dot) product; not in the source, used to state orthogonality. -/
def dot [Mul α] [Add α] (a b : vec α) : α := a.x * b.x + a.y * b.y + a.z * b.z

end vec

/-- The function `normsq`: squared Euclidean length. -/
def normsq {α : Type} [Mul α] [Add α] (a : vec α) : α := a.x * a.x + a.y * a.y + a.z * a.z

/-- The function `len`: `sqrt( normsq( a ) )`. -/
def len {α : Type} [Mul α] [Add α] (sqrt : α → α) (a : vec α) : α := sqrt (normsq a)

/-- The stream insertion `operator <<` for a vector: each coordinate followed by a blank.
`fmt` is the stream's formatting of one `double`. -/
def vec.print {α : Type} (fmt : α → String) (a : vec α) : String :=
  fmt a.x ++ " " ++ fmt a.y ++ " " ++ fmt a.z ++ " "

/-! ## Triangles and the mesh container (source lines 31-76) -/

/-- The `struct Triangle`: three vertices in winding order. -/
structure Triangle (α : Type) where
  v1 : vec α
  v2 : vec α
  v3 : vec α
deriving DecidableEq, Repr

/-- The `class STL`: the vector of triangles in insertion order. -/
structure STL (α : Type) where
  triangles : List (Triangle α)
deriving DecidableEq, Repr

namespace STL

variable {α : Type}

/-- A freshly constructed `STL` object holds no triangle. -/
def empty : STL α := ⟨[]⟩

/-- The method `STL::addTriangle`: `triangles.push_back( { v1, v2, v3 } )`. -/
def addTriangle (stl : STL α) (v1 v2 v3 : vec α) : STL α :=
  ⟨stl.triangles ++ [⟨v1, v2, v3⟩]⟩

/-- The method `STL::addRectangle`: two calls of `addTriangle`. -/
def addRectangle (stl : STL α) (v1 v2 v3 v4 : vec α) : STL α :=
  (stl.addTriangle v1 v2 v3).addTriangle v1 v3 v4

end STL

/-! ## The output stream used by `draw` -/

/-- The exception type `std::ios_base::failure`, which a standard stream throws only when its
exception mask has been set with `exceptions(...)`; the program never sets it. -/
structure ios_failure where
  what : String
deriving DecidableEq, Repr

/-- The state of a `std::ofstream`: whether the stream is usable (the file was opened, no
fail bit set) and the characters written to the file so far. -/
structure ofstream where
  good : Bool
  written : String
deriving DecidableEq, Repr

namespace ofstream

/-- The constructor `ofstream out( filename )`: the file is created or truncated when it can be
opened for writing; otherwise the stream only gets its fail bit set. `canOpen` is the answer of
the file system for `filename`. -/
def ctor (canOpen : Bool) : ofstream := ⟨canOpen, ""⟩

/-- One insertion `out << s`: appends to the file, and does nothing on a failed stream. -/
def put (out : ofstream) (s : String) : ofstream :=
  if out.good then ⟨true, out.written ++ s⟩ else out

end ofstream

/-! ## Exporting the mesh (source lines 80-100) -/

namespace Triangle

variable {α : Type}

/-- Lines 87-88 of `STL::draw`: `n = (v2 - v1) * (v3 - v1); n = n / len( n )`. On `double` a
zero-length `n` gives NaN components (`0 / 0`); in a field the quotient is `0` by convention. -/
def unitNormal [Add α] [Sub α] [Mul α] [Div α] (sqrt : α → α) (tri : Triangle α) : vec α :=
  let n := (tri.v2 - tri.v1) * (tri.v3 - tri.v1)
  n / len sqrt n

end Triangle

namespace STL

variable {α : Type}

/-- The body of the loop of `STL::draw` (lines 87-96): the seven lines of one facet. -/
def drawFacet [Add α] [Sub α] [Mul α] [Div α] (fmt : α → String) (sqrt : α → α)
    (out : ofstream) (tri : Triangle α) : ofstream :=
  let n := tri.unitNormal sqrt
  let out := ((out.put "   facet normal ").put (n.print fmt)).put "\n"
  let out := out.put "      outer loop\n"
  let out := ((out.put "         vertex ").put (tri.v1.print fmt)).put "\n"
  let out := ((out.put "         vertex ").put (tri.v2.print fmt)).put "\n"
  let out := ((out.put "         vertex ").put (tri.v3.print fmt)).put "\n"
  let out := out.put "      endloop\n"
  out.put "   endfacet\n"

/-- The method `STL::draw`. It opens the stream, writes `solid`, one facet per stored triangle
in order, and `endsolid`. The method has return type `void`, tests no stream state and throws
nothing, so every run ends in `.ok` with the final state of the stream. -/
def draw [Add α] [Sub α] [Mul α] [Div α] (fmt : α → String) (sqrt : α → α) (stl : STL α)
    (canOpen : Bool) : Except ios_failure ofstream :=
  let out := ofstream.ctor canOpen
  let out := out.put "solid\n"
  let out := stl.triangles.foldl (drawFacet fmt sqrt) out
  let out := out.put "endsolid\n"
  .ok out

end STL

/-! ## Cube (source lines 104-140) -/

/-- The data members of `class Cube`. -/
structure Cube (α : Type) where
  centre : vec α
  L : α
  side1 : vec α
  side2 : vec α
  side3 : vec α
deriving DecidableEq, Repr

namespace Cube

variable {α : Type}

/-- The constructor `Cube( vec centre, double L )`: axis-aligned sides. -/
def ofLength [Zero α] (centre : vec α) (L : α) : Cube α :=
  { centre := centre, L := L,
    side1 := ⟨L, 0, 0⟩,
    side2 := ⟨0, L, 0⟩,
    side3 := ⟨0, 0, L⟩ }

/-- The constructor `Cube( vec centre, vec side1, vec side2 )`:
`L = len( side1 ); side3 = side1 * side2 / L`. -/
def ofSides [Add α] [Sub α] [Mul α] [Div α] (sqrt : α → α) (centre side1 side2 : vec α) :
    Cube α :=
  let L := len sqrt side1
  { centre := centre, L := L,
    side1 := side1,
    side2 := side2,
    side3 := side1 * side2 / L }

/-- The eight corners computed at the start of `Cube::addToPlot` (lines 129-133). -/
def corners [Add α] [Sub α] [Mul α] [OfScientific α] (C : Cube α) :
    vec α × vec α × vec α × vec α × vec α × vec α × vec α × vec α :=
  let v1 := C.centre - (0.5 : α) * (C.side1 + C.side2 + C.side3)
  let v2 := v1 + C.side1
  let v3 := v2 + C.side2
  let v4 := v3 - C.side1
  let v5 := v1 + C.side3
  let v6 := v2 + C.side3
  let v7 := v3 + C.side3
  let v8 := v4 + C.side3
  (v1, v2, v3, v4, v5, v6, v7, v8)

/-- The method `Cube::addToPlot`: six rectangles over the eight corners. -/
def addToPlot [Add α] [Sub α] [Mul α] [OfScientific α] (C : Cube α) (stl : STL α) : STL α :=
  match C.corners with
  | (v1, v2, v3, v4, v5, v6, v7, v8) =>
    let stl := stl.addRectangle v1 v2 v6 v5
    let stl := stl.addRectangle v2 v3 v7 v6
    let stl := stl.addRectangle v3 v4 v8 v7
    let stl := stl.addRectangle v4 v1 v5 v8
    let stl := stl.addRectangle v1 v4 v3 v2
    stl.addRectangle v5 v6 v7 v8

end Cube

/-! ## Cylinder (source lines 144-190) -/

/-- The constant `PI = 4.0 * atan( 1.0 )`. -/
def PI {α : Type} [Mul α] [OfScientific α] (atan : α → α) : α := 4.0 * atan 1.0

/-- The data members of `class Cylinder`; `nface` is a C++ `int`. -/
structure Cylinder (α : Type) where
  centre : vec α
  r : α
  h : α
  nface : Int
  side1 : vec α
  side2 : vec α
  side3 : vec α
deriving DecidableEq, Repr

namespace Cylinder

variable {α : Type}

/-- The constructor `Cylinder( vec centre, double r, double h, int n )`: axis-aligned
(the source gives `n` the default value 30). -/
def ofRadius [Zero α] (centre : vec α) (r h : α) (n : Int) : Cylinder α :=
  { centre := centre, r := r, h := h, nface := n,
    side1 := ⟨r, 0, 0⟩,
    side2 := ⟨0, r, 0⟩,
    side3 := ⟨0, 0, h⟩ }

/-- The constructor `Cylinder( vec centre, vec side1, vec side3, int n )`:
`r = len( side1 ); h = len( side3 ); side2 = side3 * side1 / h`. -/
def ofAxes [Add α] [Sub α] [Mul α] [Div α] (sqrt : α → α) (centre side1 side3 : vec α)
    (n : Int) : Cylinder α :=
  let r := len sqrt side1
  let h := len sqrt side3
  { centre := centre, r := r, h := h, nface := n,
    side1 := side1,
    side2 := side3 * side1 / h,
    side3 := side3 }

/-- Centre of the base, line 172. -/
def bottom [Sub α] [Mul α] [OfScientific α] (C : Cylinder α) : vec α :=
  C.centre - (0.5 : α) * C.side3

/-- Centre of the top, line 173. -/
def top [Add α] [Sub α] [Mul α] [OfScientific α] (C : Cylinder α) : vec α :=
  C.bottom + C.side3

/-- The angle step, line 175: `2.0 * PI / nface`, with `nface` converted to `double`. -/
def dtheta [Mul α] [Div α] [OfScientific α] [IntCast α] (atan : α → α) (C : Cylinder α) : α :=
  2.0 * PI atan / (C.nface : α)

/-- The variables that live across iterations of the loop of `Cylinder::addToPlot`:
the current bottom point `v2`, its top counterpart `v3`, and the mesh. -/
structure LoopState (α : Type) where
  v2 : vec α
  v3 : vec α
  stl : STL α
deriving DecidableEq, Repr

/-- One iteration of the loop (lines 181-188) for the counter value `n`. -/
def step [Add α] [Sub α] [Mul α] [Div α] [OfScientific α] [IntCast α]
    (atan cos sin : α → α) (C : Cylinder α) (s : LoopState α) (n : Int) : LoopState α :=
  let theta := (n : α) * C.dtheta atan
  let v1 := s.v2
  let v4 := s.v3
  let v2 := C.bottom + cos theta * C.side1 + sin theta * C.side2
  let v3 := v2 + C.side3
  let stl := s.stl.addRectangle v1 v2 v3 v4
  let stl := stl.addTriangle v2 v1 C.bottom
  let stl := stl.addTriangle v4 v3 C.top
  ⟨v2, v3, stl⟩

/-- The counter values `1, 2, ..., nface` of `for ( int n = 1; n <= nface; n++ )`;
none when `nface < 1`. The values are taken in the integers; `Cylinder.loop` below runs the
same loop with the 32-bit counter of the source, and agrees for every `nface < 2^31 - 1`. -/
def counters (C : Cylinder α) : List Int :=
  (List.range C.nface.toNat).map (fun (k : Nat) => (k : Int) + 1)

/-- The state before the loop (lines 177-178): `v2 = bottom + side1; v3 = v2 + side3`. -/
def init [Add α] [Sub α] [Mul α] [OfScientific α] (C : Cylinder α) (stl : STL α) :
    LoopState α :=
  ⟨C.bottom + C.side1, C.bottom + C.side1 + C.side3, stl⟩

/-- The method `Cylinder::addToPlot`. -/
def addToPlot [Add α] [Sub α] [Mul α] [Div α] [OfScientific α] [IntCast α]
    (atan cos sin : α → α) (C : Cylinder α) (stl : STL α) : STL α :=
  (C.counters.foldl (step atan cos sin C) (C.init stl)).stl

end Cylinder

/-! ## Shapes and the driver (source lines 38-61 and 194-207) -/

/-- The abstract `class Shape` with its two derived classes. -/
inductive Shape (α : Type) where
  | cube (c : Cube α)
  | cylinder (c : Cylinder α)

/-- The virtual method `Shape::addToPlot`, dispatched on the dynamic type. -/
def Shape.addToPlot {α : Type} [Add α] [Sub α] [Mul α] [Div α] [OfScientific α] [IntCast α]
    (atan cos sin : α → α) (S : Shape α) (stl : STL α) : STL α :=
  match S with
  | .cube c => c.addToPlot stl
  | .cylinder c => c.addToPlot atan cos sin stl

/-- The method `STL::add`: `S->addToPlot( *this )`. -/
def STL.add {α : Type} [Add α] [Sub α] [Mul α] [Div α] [OfScientific α] [IntCast α]
    (atan cos sin : α → α) (stl : STL α) (S : Shape α) : STL α :=
  S.addToPlot atan cos sin stl

namespace Driver

variable {α : Type}

/-- The object `cube1` of `main`: `Cube cube1( vec{ 0, 0, 0 }, 25 )`. -/
def cube1 [Zero α] [NatCast α] : Cube α := Cube.ofLength ⟨0, 0, 0⟩ 25

/-- The mesh `main` builds: only `cube1` is added (the other three `add` calls are commented
out in the source). -/
def mesh [Add α] [Sub α] [Mul α] [Div α] [Zero α] [OfScientific α] [IntCast α] [NatCast α]
    (atan cos sin : α → α) : STL α :=
  STL.empty.add atan cos sin (.cube cube1)

/-- The function `main`: build the mesh and `draw` it to `stl.stl`. -/
def main [Add α] [Sub α] [Mul α] [Div α] [Zero α] [OfScientific α] [IntCast α] [NatCast α]
    (fmt : α → String) (sqrt atan cos sin : α → α) (canOpen : Bool) :
    Except ios_failure ofstream :=
  (mesh atan cos sin).draw fmt sqrt canOpen

end Driver

/-! ## Vocabulary used to state the properties -/

/-- The three vertices of a triangle, in their stored order. -/
def Triangle.vertices {α : Type} (t : Triangle α) : List (vec α) := [t.v1, t.v2, t.v3]

/-- The un-normalised normal `(v2 - v1) * (v3 - v1)` that `draw` computes on line 87. -/
def Triangle.normal {α : Type} [Sub α] [Mul α] (t : Triangle α) : vec α :=
  (t.v2 - t.v1) * (t.v3 - t.v1)

/-- The centroid of a triangle. -/
def Triangle.centroid {α : Type} [Add α] [Div α] [NatCast α] (t : Triangle α) : vec α :=
  (t.v1 + t.v2 + t.v3) / (3 : α)

/-- The two triangles of a quadrilateral face `(a, b, c, d)`, split along the diagonal `a-c`. -/
def faceTriangles {α : Type} (q : vec α × vec α × vec α × vec α) : List (Triangle α) :=
  [⟨q.1, q.2.1, q.2.2.1⟩, ⟨q.1, q.2.2.1, q.2.2.2⟩]

namespace Cylinder

variable {α : Type} [Add α] [Sub α] [Mul α] [Div α] [OfScientific α] [IntCast α]

/-- The circumference point of the angle `n * dtheta` (the right-hand side of line 184). -/
def point (atan cos sin : α → α) (C : Cylinder α) (n : Int) : vec α :=
  C.bottom + cos ((n : α) * C.dtheta atan) * C.side1 + sin ((n : α) * C.dtheta atan) * C.side2

/-- The point the loop holds in `v1` during the iteration with counter `n`: the start point
`bottom + side1` in the first iteration, the point of the previous iteration afterwards. -/
def previous (atan cos sin : α → α) (C : Cylinder α) (n : Int) : vec α :=
  if n = 1 then C.bottom + C.side1 else C.point atan cos sin (n - 1)

/-- The two side triangles of the iteration with counter `n`: the rectangle
`(v1, v2, v3, v4)` of line 186. -/
def sideTriangles (atan cos sin : α → α) (C : Cylinder α) (n : Int) : List (Triangle α) :=
  faceTriangles (C.previous atan cos sin n, C.point atan cos sin n,
    C.point atan cos sin n + C.side3, C.previous atan cos sin n + C.side3)

/-- The bottom-cap triangle `(v2, v1, bottom)` of the iteration with counter `n`, line 187. -/
def bottomCap (atan cos sin : α → α) (C : Cylinder α) (n : Int) : Triangle α :=
  ⟨C.point atan cos sin n, C.previous atan cos sin n, C.bottom⟩

/-- The top-cap triangle `(v4, v3, top)` of the iteration with counter `n`, line 188. -/
def topCap (atan cos sin : α → α) (C : Cylinder α) (n : Int) : Triangle α :=
  ⟨C.previous atan cos sin n + C.side3, C.point atan cos sin n + C.side3, C.top⟩

/-- The four triangles of the iteration with counter `n`: two side triangles, the bottom-cap
triangle and the top-cap triangle. -/
def stepTriangles (atan cos sin : α → α) (C : Cylinder α) (n : Int) : List (Triangle α) :=
  C.sideTriangles atan cos sin n ++ [C.bottomCap atan cos sin n, C.topCap atan cos sin n]

end Cylinder

/-- The outward axis directions of the six cube faces in the order `Cube::addToPlot` emits
them: `-y, +x, +y, -x, -z, +z`. -/
def outwardDirections {α : Type} [Field α] : List (vec α) :=
  [⟨0, -1, 0⟩, ⟨1, 0, 0⟩, ⟨0, 1, 0⟩, ⟨-1, 0, 0⟩, ⟨0, 0, -1⟩, ⟨0, 0, 1⟩]

/-- The text made of the given lines, each terminated by a newline. -/
def unlines : List String → String
  | [] => ""
  | l :: ls => l ++ "\n" ++ unlines ls

/-- The seven lines of the facet block of one triangle. -/
def facetLines {α : Type} [Add α] [Sub α] [Mul α] [Div α] (fmt : α → String) (sqrt : α → α)
    (t : Triangle α) : List String :=
  ["   facet normal " ++ (t.unitNormal sqrt).print fmt,
   "      outer loop",
   "         vertex " ++ t.v1.print fmt,
   "         vertex " ++ t.v2.print fmt,
   "         vertex " ++ t.v3.print fmt,
   "      endloop",
   "   endfacet"]

/-- The lines of the whole file for a list of triangles. -/
def fileLines {α : Type} [Add α] [Sub α] [Mul α] [Div α] (fmt : α → String) (sqrt : α → α)
    (ts : List (Triangle α)) : List String :=
  ["solid"] ++ ts.flatMap (facetLines fmt sqrt) ++ ["endsolid"]

/-- Whether a line starts with the keyword `facet normal` (after the indentation). -/
def isFacetNormalLine (l : String) : Bool := List.isPrefixOf "   facet normal ".data l.data

namespace Cylinder

variable {α : Type} [Add α] [Sub α] [Mul α] [Div α] [OfScientific α] [IntCast α] [NatCast α]

end Cylinder

/-- The three directed edges `v1 -> v2`, `v2 -> v3`, `v3 -> v1` of a triangle. -/
def Triangle.edges {α : Type} (t : Triangle α) : List (vec α × vec α) :=
  [(t.v1, t.v2), (t.v2, t.v3), (t.v3, t.v1)]

/-- The corner `v1, ..., v8` of `Cube::addToPlot` with index `0, ..., 7`. -/
def Cube.cornerAt {α : Type} [Add α] [Sub α] [Mul α] [OfScientific α] (C : Cube α) (i : Fin 8) :
    vec α :=
  match i with
  | 0 => C.corners.1
  | 1 => C.corners.2.1
  | 2 => C.corners.2.2.1
  | 3 => C.corners.2.2.2.1
  | 4 => C.corners.2.2.2.2.1
  | 5 => C.corners.2.2.2.2.2.1
  | 6 => C.corners.2.2.2.2.2.2.1
  | 7 => C.corners.2.2.2.2.2.2.2

/-- The corner indices of the twelve triangles of `Cube::addToPlot`, in emission order: the
six rectangles `(1,2,6,5), (2,3,7,6), (3,4,8,7), (4,1,5,8), (1,4,3,2), (5,6,7,8)` of lines
134-139 (numbered from 0 here), each split as `(a,b,c), (a,c,d)`. -/
def cubeTriangleIndices : List (Fin 8 × Fin 8 × Fin 8) :=
  [(0, 1, 5), (0, 5, 4), (1, 2, 6), (1, 6, 5), (2, 3, 7), (2, 7, 6),
   (3, 0, 4), (3, 4, 7), (0, 3, 2), (0, 2, 1), (4, 5, 6), (4, 6, 7)]

/-- The directed edges of the twelve index triangles. -/
def cubeEdgeIndices : List (Fin 8 × Fin 8) :=
  cubeTriangleIndices.flatMap (fun t => [(t.1, t.2.1), (t.2.1, t.2.2), (t.2.2, t.1)])

/-! ## The type `double`

The definitions above are generic in the scalar type. This section gives the scalar type of
the program itself: IEEE 754 binary64 with rounding to nearest, ties to even. Every operation
computes the exact result on integers and rounds it once. -/

/-- A value of the IEEE 754 binary64 format, the `double` of the program: the finite number
`(-1)^neg * m * 2^e`, an infinity, or a NaN. The operations below return finite values in
canonical form: `m < 2^53` and `-1074 ≤ e ≤ 971`, with `2^52 ≤ m` unless `e = -1074` (zero
and the subnormal numbers). -/
inductive double where
  | finite (neg : Bool) (m : Nat) (e : Int)
  | inf (neg : Bool)
  | nan
deriving DecidableEq, Repr

namespace double

/-- Helper of `log2`: adds `2^i` to `acc` for `i = fuel - 1, ..., 0` while `2^acc ≤ n`. -/
def log2Aux (n : Nat) : Nat → Nat → Nat
  | 0, acc => acc
  | i + 1, acc => if 2 ^ (acc + 2 ^ i) ≤ n then log2Aux n i (acc + 2 ^ i) else log2Aux n i acc

/-- The largest `k` with `2^k ≤ n`, for `0 < n < 2^65536`. -/
def log2 (n : Nat) : Nat := log2Aux n 16 0

/-- Helper of `isqrt`: sets the bits `fuel - 1, ..., 0` of the root from the top. -/
def isqrtAux (n : Nat) : Nat → Nat → Nat
  | 0, r => r
  | k + 1, r => if (r + 2 ^ k) * (r + 2 ^ k) ≤ n then isqrtAux n k (r + 2 ^ k) else isqrtAux n k r

/-- The integer square root, for `n < 2^400`. -/
def isqrt (n : Nat) : Nat := isqrtAux n 200 0

/-- Numerator and denominator of `n / d / 2^k`. -/
def scale (n d : Nat) (k : Int) : Nat × Nat :=
  if 0 ≤ k then (n, d * 2 ^ k.toNat) else (n * 2 ^ (-k).toNat, d)

/-- The integer nearest to `n / d`, the even one of the two on a tie. -/
def nearest (n d : Nat) : Nat :=
  if 2 * (n % d) < d then n / d
  else if d < 2 * (n % d) then n / d + 1
  else if n / d % 2 = 0 then n / d else n / d + 1

/-- Rounding to nearest, ties to even: the `double` nearest to `(-1)^neg * n / d`, for
`0 < d`. The exponent `k` is chosen with `2^52 ≤ n / d / 2^k < 2^53`, but not below `-1074`;
a result of `2^1024` or more is an infinity. -/
def round (neg : Bool) (n d : Nat) : double :=
  if n = 0 then finite neg 0 (-1074)
  else
    let k0 : Int := (log2 n : Int) - (log2 d : Int) - 52
    let k1 : Int := if (scale n d k0).1 / (scale n d k0).2 < 2 ^ 52 then k0 - 1 else k0
    let k : Int := if k1 < -1074 then -1074 else k1
    let m := nearest (scale n d k).1 (scale n d k).2
    if m = 2 ^ 53 then (if 971 < k + 1 then inf neg else finite neg (2 ^ 52) (k + 1))
    else if 971 < k then inf neg
    else finite neg m k

/-- Unary minus. -/
def neg : double → double
  | finite s m e => finite (!s) m e
  | inf s => inf (!s)
  | nan => nan

/-- Addition: the exact sum, rounded. -/
def add : double → double → double
  | finite sa ma ea, finite sb mb eb =>
    let e := min ea eb
    let a := ma * 2 ^ (ea - e).toNat
    let b := mb * 2 ^ (eb - e).toNat
    if sa = sb then round sa ((a + b) * 2 ^ (e + 1074).toNat) (2 ^ 1074)
    else if b < a then round sa ((a - b) * 2 ^ (e + 1074).toNat) (2 ^ 1074)
    else if a < b then round sb ((b - a) * 2 ^ (e + 1074).toNat) (2 ^ 1074)
    else finite false 0 (-1074)
  | finite _ _ _, inf sb => inf sb
  | inf sa, finite _ _ _ => inf sa
  | inf sa, inf sb => if sa = sb then inf sa else nan
  | nan, _ => nan
  | _, nan => nan

/-- Subtraction: `a + (-b)`. -/
def sub (a b : double) : double := add a (neg b)

/-- Multiplication: the exact product, rounded. -/
def mul : double → double → double
  | finite sa ma ea, finite sb mb eb =>
    round (sa != sb) (ma * mb * 2 ^ (ea + eb + 2148).toNat) (2 ^ 2148)
  | finite sa ma _, inf sb => if ma = 0 then nan else inf (sa != sb)
  | inf sa, finite sb mb _ => if mb = 0 then nan else inf (sa != sb)
  | inf sa, inf sb => inf (sa != sb)
  | nan, _ => nan
  | _, nan => nan

/-- Division: the exact quotient, rounded; `x / 0` is an infinity and `0 / 0` a NaN. -/
def div : double → double → double
  | finite sa ma ea, finite sb mb eb =>
    if mb = 0 then (if ma = 0 then nan else inf (sa != sb))
    else round (sa != sb) (ma * 2 ^ (ea + 1074).toNat) (mb * 2 ^ (eb + 1074).toNat)
  | finite sa _ _, inf sb => finite (sa != sb) 0 (-1074)
  | inf sa, finite sb _ _ => inf (sa != sb)
  | inf _, inf _ => nan
  | nan, _ => nan
  | _, nan => nan

/-- The function `sqrt` of `<cmath>`: the exact square root, rounded. For `m * 2^e` with
`e + 1074 = 2 t + p` the root is `sqrt(m * 2^p) * 2^t / 2^537`; the integer root of
`m * 2^p * 2^256` has more than 54 bits, and one more bit tells whether it is exact. -/
def sqrt : double → double
  | finite s m e =>
    if m = 0 then finite s 0 (-1074)
    else if s then nan
    else
      let x := m * 2 ^ ((e + 1074).toNat % 2) * 2 ^ 256
      let r := isqrt x
      let sticky := if r * r = x then 0 else 1
      round false ((2 * r + sticky) * 2 ^ ((e + 1074).toNat / 2)) (2 ^ 666)
  | inf s => if s then nan else inf false
  | nan => nan

/-- The comparison `a < b`; false when an operand is a NaN. -/
def lt : double → double → Bool
  | finite sa ma ea, finite sb mb eb =>
    let e := min ea eb
    let a : Int := if sa then -((ma * 2 ^ (ea - e).toNat : Nat) : Int)
      else ((ma * 2 ^ (ea - e).toNat : Nat) : Int)
    let b : Int := if sb then -((mb * 2 ^ (eb - e).toNat : Nat) : Int)
      else ((mb * 2 ^ (eb - e).toNat : Nat) : Int)
    decide (a < b)
  | finite _ _ _, inf sb => !sb
  | inf sa, finite _ _ _ => sa
  | inf sa, inf sb => sa && !sb
  | nan, _ => false
  | _, nan => false

instance : Add double := ⟨add⟩
instance : Sub double := ⟨sub⟩
instance : Mul double := ⟨mul⟩
instance : Div double := ⟨div⟩
instance : Neg double := ⟨neg⟩
instance : Zero double := ⟨finite false 0 (-1074)⟩
instance : One double := ⟨round false 1 1⟩
instance : NatCast double := ⟨fun n => round false n 1⟩
instance : IntCast double := ⟨fun i => round (decide (i < 0)) i.natAbs 1⟩
instance : LT double := ⟨fun a b => lt a b = true⟩
instance (a b : double) : Decidable (a < b) := inferInstanceAs (Decidable (lt a b = true))

/-- A decimal literal `m * 10^(±e)` of the source, rounded as the compiler rounds it. -/
instance : OfScientific double :=
  ⟨fun m s e => if s then round false m (10 ^ e) else round false (m * 10 ^ e) 1⟩

end double

/-- The number `x` is the negation of the number `y`: `x = -y`, or both are the zero `+0`
(the difference of two equal numbers is `+0` in either order). -/
def double.isNegOf (x y : double) : Prop := x = -y ∨ (x = 0 ∧ y = 0)

/-! ## The loop of `Cylinder::addToPlot` with its 32-bit counter -/

/-- The largest value of the C++ type `int`. -/
def INT_MAX : Int := 2147483647

/-- Why a run of the loop of `Cylinder::addToPlot` does not return: the increment `n++` at
`n = INT_MAX` (signed overflow, undefined behaviour), or a run longer than the number of loop
tests the model was given. -/
inductive LoopFault where
  | overflow
  | fuel
deriving DecidableEq, Repr

namespace Cylinder

variable {α : Type} [Add α] [Sub α] [Mul α] [Div α] [OfScientific α] [IntCast α]

/-- The loop `for ( int n = 1; n <= nface; n++ )` of line 179 from the counter value `n` on:
test `n <= nface`, body (`step`), increment. `fuel` bounds the number of tests. -/
def loop (atan cos sin : α → α) (C : Cylinder α) :
    Nat → Int → LoopState α → Except LoopFault (LoopState α)
  | 0, _, _ => .error .fuel
  | fuel + 1, n, s =>
    if n ≤ C.nface then
      if n = INT_MAX then .error .overflow
      else loop atan cos sin C fuel (n + 1) (C.step atan cos sin s n)
    else .ok s

/-- The method `Cylinder::addToPlot` run with the 32-bit counter: the mesh it returns, if it
returns. For `nface < INT_MAX` this is the mesh of `addToPlot`, which lets the counter range
over the integers. -/
def run (atan cos sin : α → α) (C : Cylinder α) (stl : STL α) (fuel : Nat) :
    Except LoopFault (STL α) :=
  (C.loop atan cos sin fuel 1 (C.init stl)).map (fun s => s.stl)

end Cylinder

/-! ## Theorems -/

/-- C1: `addRectangle(v1,v2,v3,v4)` keeps the stored triangles and appends exactly the two
triangles (v1,v2,v3) and (v1,v3,v4), in that order, with the vertex order as written. -/
theorem addRectangle_appends {α : Type} (stl : STL α) (v1 v2 v3 v4 : vec α) :
    (stl.addRectangle v1 v2 v3 v4).triangles
      = stl.triangles ++ [⟨v1, v2, v3⟩, ⟨v1, v3, v4⟩] := by
  simp [STL.addRectangle, STL.addTriangle]

/-! ### Shared lemmas on the vector operations -/

/-- Unfolding of `+` on vectors. -/
theorem vec.add_def {α : Type} [Add α] (a b : vec α) : a + b = ⟨a.x + b.x, a.y + b.y, a.z + b.z⟩ := rfl
/-- Unfolding of `-` on vectors. -/
theorem vec.sub_def {α : Type} [Sub α] (a b : vec α) : a - b = ⟨a.x - b.x, a.y - b.y, a.z - b.z⟩ := rfl
/-- Unfolding of `/` by a scalar. -/
theorem vec.div_def {α : Type} [Div α] (a : vec α) (d : α) : a / d = ⟨a.x / d, a.y / d, a.z / d⟩ := rfl
/-- Unfolding of the scalar multiple. -/
theorem vec.smul_def {α : Type} [Mul α] (d : α) (a : vec α) : d * a = ⟨d * a.x, d * a.y, d * a.z⟩ := rfl
/-- Unfolding of the cross product. -/
theorem vec.cross_def {α : Type} [Mul α] [Sub α] (a b : vec α) :
    a * b = ⟨a.y * b.z - a.z * b.y, a.z * b.x - a.x * b.z, a.x * b.y - a.y * b.x⟩ := rfl

/-- The eight corners of the cube built from a centre and a side length, over the reals. -/
theorem Cube.ofLength_corners (c : vec ℝ) (L : ℝ) :
    (Cube.ofLength c L).corners =
      (⟨c.x - L / 2, c.y - L / 2, c.z - L / 2⟩, ⟨c.x + L / 2, c.y - L / 2, c.z - L / 2⟩,
       ⟨c.x + L / 2, c.y + L / 2, c.z - L / 2⟩, ⟨c.x - L / 2, c.y + L / 2, c.z - L / 2⟩,
       ⟨c.x - L / 2, c.y - L / 2, c.z + L / 2⟩, ⟨c.x + L / 2, c.y - L / 2, c.z + L / 2⟩,
       ⟨c.x + L / 2, c.y + L / 2, c.z + L / 2⟩, ⟨c.x - L / 2, c.y + L / 2, c.z + L / 2⟩) := by
  simp only [Cube.corners, Cube.ofLength, vec.add_def, vec.sub_def, vec.smul_def, Prod.mk.injEq,
    vec.mk.injEq]
  refine ⟨⟨?_, ?_, ?_⟩, ⟨?_, ?_, ?_⟩, ⟨?_, ?_, ?_⟩, ⟨?_, ?_, ?_⟩, ⟨?_, ?_, ?_⟩, ⟨?_, ?_, ?_⟩,
    ⟨?_, ?_, ?_⟩, ⟨?_, ?_, ?_⟩⟩ <;> norm_num <;> ring

/-! ### Shared lemmas on the cube -/

/-- The twelve triangles of `Cube::addToPlot`, in terms of the eight corners. -/
theorem Cube.addToPlot_faces {α : Type} [Add α] [Sub α] [Mul α] [OfScientific α] (C : Cube α)
    (stl : STL α) :
    (C.addToPlot stl).triangles = stl.triangles ++
      [(C.corners.1, C.corners.2.1, C.corners.2.2.2.2.2.1, C.corners.2.2.2.2.1),
       (C.corners.2.1, C.corners.2.2.1, C.corners.2.2.2.2.2.2.1, C.corners.2.2.2.2.2.1),
       (C.corners.2.2.1, C.corners.2.2.2.1, C.corners.2.2.2.2.2.2.2, C.corners.2.2.2.2.2.2.1),
       (C.corners.2.2.2.1, C.corners.1, C.corners.2.2.2.2.1, C.corners.2.2.2.2.2.2.2),
       (C.corners.1, C.corners.2.2.2.1, C.corners.2.2.1, C.corners.2.1),
       (C.corners.2.2.2.2.1, C.corners.2.2.2.2.2.1, C.corners.2.2.2.2.2.2.1,
         C.corners.2.2.2.2.2.2.2)].flatMap faceTriangles := by
  simp [Cube.addToPlot, STL.addRectangle, STL.addTriangle, faceTriangles]

/-! ### Shared lemmas on the cylinder loop -/

/-- The counters of `k + 1` faces are those of `k` faces followed by `k + 1`. -/
theorem Cylinder.range_counters (k : Nat) :
    (List.range (k + 1)).map (fun (j : Nat) => (j : Int) + 1)
      = (List.range k).map (fun (j : Nat) => (j : Int) + 1) ++ [(k : Int) + 1] := by
  simp [List.range_succ]

/-- Loop invariant of `Cylinder::addToPlot`: after the iterations `1, ..., k` the variable `v2`
holds the point that iteration `k + 1` will use as `v1`, `v3` is its top counterpart, and the
mesh has grown by the four triangles of each iteration, in order. -/
theorem Cylinder.loop_invariant {α : Type} [Add α] [Sub α] [Mul α] [Div α] [OfScientific α] [IntCast α]
    (atan cos sin : α → α) (C : Cylinder α) (stl : STL α) (k : Nat) :
    let s := ((List.range k).map (fun (j : Nat) => (j : Int) + 1)).foldl (C.step atan cos sin)
      (C.init stl)
    s.v2 = C.previous atan cos sin ((k : Int) + 1)
      ∧ s.v3 = C.previous atan cos sin ((k : Int) + 1) + C.side3
      ∧ s.stl.triangles = stl.triangles ++
          ((List.range k).map (fun (j : Nat) => (j : Int) + 1)).flatMap (C.stepTriangles atan cos sin) := by
  induction k with
  | zero => simp [Cylinder.init, Cylinder.previous]
  | succ k ih =>
    obtain ⟨h2, h3, ht⟩ := ih
    have hk : ((k : Int) + 1 + 1 = 1) = False := by
      simp only [eq_iff_iff, iff_false]; omega
    rw [Cylinder.range_counters, List.foldl_append]
    refine ⟨?_, ?_, ?_⟩
    · simp [Cylinder.step, Cylinder.previous, Cylinder.point, hk]
    · simp [Cylinder.step, Cylinder.previous, Cylinder.point, hk]
    · simp only [List.foldl_cons, List.foldl_nil, Cylinder.step, STL.addRectangle,
        STL.addTriangle, ht, h2, h3, List.flatMap_append, List.flatMap_cons, List.flatMap_nil,
        Cylinder.stepTriangles, Cylinder.sideTriangles, Cylinder.bottomCap, Cylinder.topCap,
        faceTriangles, Cylinder.point, List.append_assoc, List.cons_append,
        List.nil_append, List.append_nil, Nat.cast_add, Nat.cast_one]

/-- The triangles of `Cylinder::addToPlot`: the four triangles of every iteration. -/
theorem Cylinder.addToPlot_steps {α : Type} [Add α] [Sub α] [Mul α] [Div α] [OfScientific α] [IntCast α]
    (atan cos sin : α → α) (C : Cylinder α) (stl : STL α) :
    (C.addToPlot atan cos sin stl).triangles
      = stl.triangles ++ C.counters.flatMap (C.stepTriangles atan cos sin) :=
  (Cylinder.loop_invariant atan cos sin C stl C.nface.toNat).2.2

/-- The loop with the 32-bit counter returns when `nface < INT_MAX`: started at the counter
`i + 1` with `r` iterations to go, `r + 1` tests are enough (more change nothing), and the
final state is that of the iterations `i + 1, ..., i + r`. -/
theorem Cylinder.loop_returns {α : Type} [Add α] [Sub α] [Mul α] [Div α] [OfScientific α] [IntCast α]
    (atan cos sin : α → α) (C : Cylinder α) (hmax : C.nface < INT_MAX) :
    ∀ (r i x : Nat) (s : Cylinder.LoopState α), i + r = C.nface.toNat →
      C.loop atan cos sin (r + 1 + x) ((i : Int) + 1) s
        = .ok (((List.range r).map (fun (j : Nat) => ((i + j : Nat) : Int) + 1)).foldl
            (C.step atan cos sin) s) := by
  intro r
  induction r with
  | zero =>
    intro i x s h
    have hx : 0 + 1 + x = x + 1 := by omega
    have hc : ¬ ((i : Int) + 1 ≤ C.nface) := by omega
    rw [hx]
    simp only [Cylinder.loop, if_neg hc, List.range_zero, List.map_nil, List.foldl_nil]
  | succ r ih =>
    intro i x s h
    have hx : r + 1 + 1 + x = (r + 1 + x) + 1 := by omega
    have hc : (i : Int) + 1 ≤ C.nface := by omega
    have hm : ¬ ((i : Int) + 1 = INT_MAX) := by omega
    have hi := ih (i + 1) x (C.step atan cos sin s ((i : Int) + 1)) (by omega)
    have hf : (fun (j : Nat) => ((i + 1 + j : Nat) : Int) + 1)
        = (fun (j : Nat) => ((i + j : Nat) : Int) + 1) ∘ Nat.succ := by
      funext j
      simp only [Function.comp_apply, Nat.succ_eq_add_one]
      omega
    rw [hx]
    simp only [Cylinder.loop, if_pos hc, if_neg hm]
    rw [show ((i : Int) + 1 + 1) = (((i + 1 : Nat) : Int) + 1) by omega, hi, hf,
      List.range_succ_eq_map, List.map_cons, List.foldl_cons, List.map_map]
    simp only [Nat.add_zero]

/-- For `nface < INT_MAX` the run with the 32-bit counter returns the mesh of `addToPlot`, with
`nface + 1` loop tests or more. -/
theorem Cylinder.run_returns {α : Type} [Add α] [Sub α] [Mul α] [Div α] [OfScientific α] [IntCast α]
    (atan cos sin : α → α) (C : Cylinder α) (stl : STL α) (hmax : C.nface < INT_MAX) (x : Nat) :
    C.run atan cos sin stl (C.nface.toNat + 1 + x) = .ok (C.addToPlot atan cos sin stl) := by
  have h := Cylinder.loop_returns atan cos sin C hmax C.nface.toNat 0 x (C.init stl) (by omega)
  simp only [Nat.cast_zero, zero_add, Nat.zero_add] at h
  simp only [Cylinder.run, h, Cylinder.addToPlot, Cylinder.counters]
  rfl

/-- For `nface = INT_MAX` the loop with the 32-bit counter never returns: every counter value
passes the test `n <= nface`, and the increment at `INT_MAX` overflows. -/
theorem Cylinder.loop_never_returns {α : Type} [Add α] [Sub α] [Mul α] [Div α] [OfScientific α]
    [IntCast α] (atan cos sin : α → α) (C : Cylinder α) (hmax : C.nface = INT_MAX) :
    ∀ (fuel : Nat) (n : Int) (s r : Cylinder.LoopState α), n ≤ INT_MAX →
      C.loop atan cos sin fuel n s ≠ .ok r := by
  intro fuel
  induction fuel with
  | zero =>
    intro n s r _ h
    simp [Cylinder.loop] at h
  | succ fuel ih =>
    intro n s r hn h
    have hc : n ≤ C.nface := by rw [hmax]; exact hn
    simp only [Cylinder.loop, if_pos hc] at h
    by_cases hm : n = INT_MAX
    · simp [hm] at h
    · rw [if_neg hm] at h
      exact ih (n + 1) _ r (by omega) h

/-! ### The claims -/

/-- C2: every cube, whichever constructor built it, adds exactly 12 triangles to an empty
mesh, and they are the two triangles of each of 6 quadrilateral faces. -/
theorem cube_twelve_triangles {α : Type} [Field α] (sqrt : α → α) :
    (∀ C : Cube α, ((C.addToPlot STL.empty).triangles.length = 12
        ∧ ∃ faces : List (vec α × vec α × vec α × vec α), faces.length = 6
            ∧ (C.addToPlot STL.empty).triangles = faces.flatMap faceTriangles))
      ∧ (∀ (c : vec α) (L : α),
          ((Cube.ofLength c L).addToPlot STL.empty).triangles.length = 12)
      ∧ (∀ c s1 s2 : vec α,
          ((Cube.ofSides sqrt c s1 s2).addToPlot STL.empty).triangles.length = 12) := by
  have key : ∀ C : Cube α, ((C.addToPlot STL.empty).triangles.length = 12
        ∧ ∃ faces : List (vec α × vec α × vec α × vec α), faces.length = 6
            ∧ (C.addToPlot STL.empty).triangles = faces.flatMap faceTriangles) := by
    intro C
    refine ⟨?_, ?_⟩
    · rw [Cube.addToPlot_faces]; simp [STL.empty, faceTriangles]
    · have h := Cube.addToPlot_faces C STL.empty
      simp only [STL.empty, List.nil_append] at h
      refine ⟨_, ?_, h⟩
      rfl
  exact ⟨key, fun c L => (key _).1, fun c s1 s2 => (key _).1⟩

/-- C4, as the code behaves: a cylinder with face count `0 <= n < 2^31 - 1` adds exactly `4 n`
triangles to an empty mesh, for each counter value two side triangles, one bottom-cap and one
top-cap triangle. The run with the 32-bit loop counter returns this mesh (with `n + 1` loop
tests or more). The statement holds for every scalar type, the program's `double` included. -/
theorem cylinder_four_n_triangles {α : Type} [Add α] [Sub α] [Mul α] [Div α] [OfScientific α]
    [IntCast α] (atan cos sin : α → α) (C : Cylinder α) (hn : 0 ≤ C.nface)
    (hmax : C.nface < 2 ^ 31 - 1) :
    (∀ x : Nat, C.run atan cos sin STL.empty (C.nface.toNat + 1 + x)
        = .ok (C.addToPlot atan cos sin STL.empty))
      ∧ (((C.addToPlot atan cos sin STL.empty).triangles.length : Int) = 4 * C.nface)
      ∧ C.counters.length = C.nface.toNat
      ∧ (C.addToPlot atan cos sin STL.empty).triangles
          = C.counters.flatMap (C.stepTriangles atan cos sin)
      ∧ ∀ n, (C.stepTriangles atan cos sin n).length = 4
          ∧ (C.sideTriangles atan cos sin n).length = 2
          ∧ C.stepTriangles atan cos sin n = C.sideTriangles atan cos sin n
              ++ [C.bottomCap atan cos sin n, C.topCap atan cos sin n] := by
  have hlen : ∀ l : List Int, (l.flatMap (C.stepTriangles atan cos sin)).length = 4 * l.length := by
    intro l
    induction l with
    | nil => simp
    | cons a l ih =>
      simp [List.flatMap_cons, ih, Cylinder.stepTriangles, Cylinder.sideTriangles, faceTriangles]
      omega
  have hc : C.counters.length = C.nface.toNat := by
    simp only [Cylinder.counters, List.length_map, List.length_range]
  have hm : C.nface < INT_MAX := by
    simp only [INT_MAX]
    omega
  refine ⟨fun x => Cylinder.run_returns atan cos sin C STL.empty hm x, ?_, hc, ?_, ?_⟩
  · rw [Cylinder.addToPlot_steps]
    simp only [STL.empty, List.nil_append, hlen, hc]
    omega
  · rw [Cylinder.addToPlot_steps]; simp [STL.empty]
  · intro n
    exact ⟨by simp [Cylinder.stepTriangles, Cylinder.sideTriangles, faceTriangles],
      by simp [Cylinder.sideTriangles, faceTriangles], rfl⟩

/-- Witness for C4: `Cylinder((0,0,0), 20, 30, 4)` on the program's `double`, for any `atan`,
`cos`, `sin`: the run returns and the mesh has 16 triangles. -/
theorem cylinder_four_n_triangles_witness :
    (0 : Int) ≤ (Cylinder.ofRadius (⟨0, 0, 0⟩ : vec double) 20 30 4).nface
      ∧ (Cylinder.ofRadius (⟨0, 0, 0⟩ : vec double) 20 30 4).nface < 2 ^ 31 - 1
      ∧ ∀ atan cos sin : double → double,
          (Cylinder.ofRadius (⟨0, 0, 0⟩ : vec double) 20 30 4).run atan cos sin STL.empty 5
              = .ok ((Cylinder.ofRadius (⟨0, 0, 0⟩ : vec double) 20 30 4).addToPlot
                  atan cos sin STL.empty)
            ∧ ((((Cylinder.ofRadius (⟨0, 0, 0⟩ : vec double) 20 30 4).addToPlot atan cos sin
                  STL.empty).triangles.length : Int) = 4 * 4) :=
  ⟨by decide, by decide, fun atan cos sin =>
    ⟨(cylinder_four_n_triangles atan cos sin
        (Cylinder.ofRadius (⟨0, 0, 0⟩ : vec double) 20 30 4) (by decide) (by decide)).1 0,
     (cylinder_four_n_triangles atan cos sin
        (Cylinder.ofRadius (⟨0, 0, 0⟩ : vec double) 20 30 4) (by decide) (by decide)).2.1⟩⟩

/-- C4 fails as stated at the face count `n = 2^31 - 1`, a value of `int` with `n >= 0`: the
test `n <= nface` never fails, the counter overflows at `INT_MAX`, and the call does not
return a mesh, whatever the number of loop tests allowed. -/
theorem cylinder_int_max_no_return :
    (0 : Int) ≤ (Cylinder.ofRadius (⟨0, 0, 0⟩ : vec double) 20 30 2147483647).nface
      ∧ ∀ (atan cos sin : double → double) (fuel : Nat) (m : STL double),
          (Cylinder.ofRadius (⟨0, 0, 0⟩ : vec double) 20 30 2147483647).run atan cos sin
            STL.empty fuel ≠ .ok m := by
  refine ⟨by decide, ?_⟩
  intro atan cos sin fuel m h
  simp only [Cylinder.run] at h
  cases hl : Cylinder.loop atan cos sin
      (Cylinder.ofRadius (⟨0, 0, 0⟩ : vec double) 20 30 2147483647) fuel 1
      ((Cylinder.ofRadius (⟨0, 0, 0⟩ : vec double) 20 30 2147483647).init STL.empty) with
  | error e => rw [hl] at h; cases h
  | ok r =>
    exact Cylinder.loop_never_returns atan cos sin _ rfl fuel 1 _ r (by decide) hl

/-- C6, over exact real arithmetic: for `L > 0` and any centre `c`, the cube has 12 triangles; paired with the outward
axis directions `-y, +x, +y, -x, -z, +z` (each twice, in emission order), every triangle has
its normal `(v2 - v1) * (v3 - v1)` equal to the positive multiple `L^2` of the direction of its
face, lies on that face (all vertices at distance `L/2` from the centre along the direction),
and its normal has strictly positive dot product with `centroid - c`. -/
theorem cube_normals_outward (c : vec ℝ) (L : ℝ) (hL : 0 < L) :
    ((Cube.ofLength c L).addToPlot STL.empty).triangles.length = 12
      ∧ 0 < L ^ 2
      ∧ ∀ p ∈ List.zip ((Cube.ofLength c L).addToPlot STL.empty).triangles
            (outwardDirections.flatMap (fun d => [d, d])),
          p.1.normal = L ^ 2 * p.2
            ∧ (∀ v ∈ p.1.vertices, vec.dot (v - c) p.2 = L / 2)
            ∧ 0 < vec.dot p.1.normal (p.1.centroid - c) := by
  refine ⟨?_, by positivity, ?_⟩
  · rw [Cube.addToPlot_faces]; simp [STL.empty, faceTriangles]
  · rw [Cube.addToPlot_faces, Cube.ofLength_corners]
    simp only [STL.empty, List.nil_append, List.flatMap_cons, List.flatMap_nil, faceTriangles,
      outwardDirections, List.append_nil, List.cons_append, List.nil_append, List.zip_cons_cons,
      List.zip_nil_right, List.mem_cons, List.mem_nil_iff, or_false, forall_eq_or_imp, forall_eq,
      Triangle.normal, Triangle.vertices, Triangle.centroid, vec.dot, vec.add_def, vec.sub_def,
      vec.smul_def, vec.div_def, vec.cross_def, vec.mk.injEq]
    and_intros <;> first | ring1 | (ring_nf; positivity)

/-- Witness for C6: the cube of `main`, centre `(0,0,0)` and side length 25. -/
theorem cube_normals_outward_witness :
    (0 : ℝ) < 25
      ∧ ∀ p ∈ List.zip ((Cube.ofLength (⟨0, 0, 0⟩ : vec ℝ) 25).addToPlot STL.empty).triangles
            (outwardDirections.flatMap (fun d => [d, d])),
          p.1.normal = (25 : ℝ) ^ 2 * p.2
            ∧ (∀ v ∈ p.1.vertices, vec.dot (v - ⟨0, 0, 0⟩) p.2 = (25 : ℝ) / 2)
            ∧ 0 < vec.dot p.1.normal (p.1.centroid - ⟨0, 0, 0⟩) :=
  ⟨by norm_num, (cube_normals_outward ⟨0, 0, 0⟩ 25 (by norm_num)).2.2⟩

/-! ### Shared lemmas on the output stream and the text of `draw` -/

/-- Writing to a usable stream appends the string. -/
theorem ofstream.put_good (w s : String) : (ofstream.mk true w).put s = ⟨true, w ++ s⟩ := by
  simp [ofstream.put]

/-- Writing to a failed stream changes nothing. -/
theorem ofstream.put_failed (w s : String) : (ofstream.mk false w).put s = ⟨false, w⟩ := by
  simp [ofstream.put]

/-- The text of two groups of lines is the concatenation of their texts. -/
theorem unlines_append (a b : List String) : unlines (a ++ b) = unlines a ++ unlines b := by
  induction a with
  | nil => simp [unlines]
  | cons l ls ih => simp [unlines, ih, String.append_assoc]

/-- The keyword lines the source writes with their newline are a line followed by a newline. -/
theorem keyword_lines :
    "solid\n" = "solid" ++ "\n" ∧ "      outer loop\n" = "      outer loop" ++ "\n"
      ∧ "      endloop\n" = "      endloop" ++ "\n" ∧ "   endfacet\n" = "   endfacet" ++ "\n"
      ∧ "endsolid\n" = "endsolid" ++ "\n" := by
  decide

/-- The text of the file: the header line, the facet blocks, the closing line. -/
theorem unlines_fileLines {α : Type} [Add α] [Sub α] [Mul α] [Div α] (fmt : α → String)
    (sqrt : α → α)
    (ts : List (Triangle α)) :
    unlines (fileLines fmt sqrt ts)
      = "solid" ++ "\n" ++ unlines (ts.flatMap (facetLines fmt sqrt)) ++ ("endsolid" ++ "\n") := by
  unfold fileLines
  rw [unlines_append, unlines_append]
  simp only [unlines, String.append_empty]

/-- On a usable stream one pass of the loop body of `draw` appends the seven facet lines. -/
theorem STL.drawFacet_good {α : Type} [Add α] [Sub α] [Mul α] [Div α] (fmt : α → String)
    (sqrt : α → α) (w : String)
    (t : Triangle α) :
    STL.drawFacet fmt sqrt ⟨true, w⟩ t = ⟨true, w ++ unlines (facetLines fmt sqrt t)⟩ := by
  simp only [STL.drawFacet, ofstream.put_good, facetLines, unlines, String.append_assoc,
    String.append_empty, keyword_lines.2.1, keyword_lines.2.2.1, keyword_lines.2.2.2.1]

/-- On a failed stream one pass of the loop body of `draw` writes nothing. -/
theorem STL.drawFacet_failed {α : Type} [Add α] [Sub α] [Mul α] [Div α] (fmt : α → String)
    (sqrt : α → α) (w : String)
    (t : Triangle α) :
    STL.drawFacet fmt sqrt ⟨false, w⟩ t = ⟨false, w⟩ := by
  simp [STL.drawFacet, ofstream.put_failed]

/-- The whole loop of `draw` on a usable stream. -/
theorem STL.drawLoop_good {α : Type} [Add α] [Sub α] [Mul α] [Div α] (fmt : α → String)
    (sqrt : α → α)
    (ts : List (Triangle α)) (w : String) :
    ts.foldl (STL.drawFacet fmt sqrt) ⟨true, w⟩
      = ⟨true, w ++ unlines (ts.flatMap (facetLines fmt sqrt))⟩ := by
  induction ts generalizing w with
  | nil => simp [unlines]
  | cons t ts ih =>
    rw [List.foldl_cons, STL.drawFacet_good, ih, List.flatMap_cons, unlines_append,
      String.append_assoc]

/-- The whole loop of `draw` on a failed stream. -/
theorem STL.drawLoop_failed {α : Type} [Add α] [Sub α] [Mul α] [Div α] (fmt : α → String)
    (sqrt : α → α)
    (ts : List (Triangle α)) (w : String) :
    ts.foldl (STL.drawFacet fmt sqrt) ⟨false, w⟩ = ⟨false, w⟩ := by
  induction ts with
  | nil => rfl
  | cons t ts ih => rw [List.foldl_cons, STL.drawFacet_failed, ih]

/-- When the file can be opened, `draw` returns normally and the file holds the lines of
`fileLines`. -/
theorem STL.draw_good {α : Type} [Add α] [Sub α] [Mul α] [Div α] (fmt : α → String)
    (sqrt : α → α) (stl : STL α) :
    stl.draw fmt sqrt true = .ok ⟨true, unlines (fileLines fmt sqrt stl.triangles)⟩ := by
  simp only [STL.draw, ofstream.ctor, ofstream.put_good, STL.drawLoop_good, unlines_fileLines,
    String.append_assoc, String.empty_append, keyword_lines.1, keyword_lines.2.2.2.2]

/-- When the file cannot be opened, `draw` still returns normally; nothing is written. -/
theorem STL.draw_failed {α : Type} [Add α] [Sub α] [Mul α] [Div α] (fmt : α → String)
    (sqrt : α → α) (stl : STL α) :
    stl.draw fmt sqrt false = .ok ⟨false, ""⟩ := by
  simp [STL.draw, ofstream.ctor, ofstream.put_failed, STL.drawLoop_failed]

/-- The facet block of a stored triangle occurs in the text, starting with its normal line. -/
theorem fileLines_normal_line {α : Type} [Add α] [Sub α] [Mul α] [Div α] (fmt : α → String)
    (sqrt : α → α)
    (ts : List (Triangle α)) (t : Triangle α) (ht : t ∈ ts) :
    ∃ pre post : String, unlines (fileLines fmt sqrt ts)
      = pre ++ ("   facet normal " ++ (t.unitNormal sqrt).print fmt ++ "\n") ++ post := by
  obtain ⟨a, b, rfl⟩ := List.append_of_mem ht
  refine ⟨"solid" ++ "\n" ++ unlines (a.flatMap (facetLines fmt sqrt)),
    unlines (facetLines fmt sqrt t).tail ++ unlines (b.flatMap (facetLines fmt sqrt))
      ++ ("endsolid" ++ "\n"), ?_⟩
  rw [unlines_fileLines, List.flatMap_append, List.flatMap_cons, unlines_append, unlines_append]
  simp only [facetLines, unlines, List.tail_cons, String.append_assoc, String.append_empty]

/-- A real vector other than the zero vector has positive squared length. -/
theorem normsq_pos_of_ne_zero (n : vec ℝ) (h : n ≠ ⟨0, 0, 0⟩) : 0 < normsq n := by
  obtain ⟨x, y, z⟩ := n
  simp only [normsq]
  by_contra hc
  push_neg at hc
  have hx : x = 0 := by nlinarith [sq_nonneg x, sq_nonneg y, sq_nonneg z]
  have hy : y = 0 := by nlinarith [sq_nonneg x, sq_nonneg y, sq_nonneg z]
  have hz : z = 0 := by nlinarith [sq_nonneg x, sq_nonneg y, sq_nonneg z]
  exact h (by rw [hx, hy, hz])

/-! ### The claims on `draw` -/

/-- Each facet block has seven lines. -/
theorem length_facetLines {α : Type} [Add α] [Sub α] [Mul α] [Div α] (fmt : α → String)
    (sqrt : α → α)
    (ts : List (Triangle α)) :
    (ts.flatMap (facetLines fmt sqrt)).length = 7 * ts.length := by
  induction ts with
  | nil => rfl
  | cons t ts ih => simp [List.flatMap_cons, ih, facetLines]; omega

/-- Exactly one line of each facet block starts with `facet normal`. -/
theorem count_facetNormal {α : Type} [Add α] [Sub α] [Mul α] [Div α] (fmt : α → String)
    (sqrt : α → α)
    (ts : List (Triangle α)) :
    ((ts.flatMap (facetLines fmt sqrt)).filter isFacetNormalLine).length = ts.length := by
  have h1 : ∀ x : String, isFacetNormalLine ("   facet normal " ++ x) = true := by
    intro x; simp [isFacetNormalLine, String.data_append]
  have h2 : ∀ x : String, isFacetNormalLine ("         vertex " ++ x) = false := by
    intro x; simp [isFacetNormalLine, String.data_append, List.isPrefixOf]
  have h3 : isFacetNormalLine "      outer loop" = false := by decide
  have h4 : isFacetNormalLine "      endloop" = false := by decide
  have h5 : isFacetNormalLine "   endfacet" = false := by decide
  induction ts with
  | nil => rfl
  | cons t ts ih =>
    rw [List.flatMap_cons, List.filter_append, List.length_append, ih]
    simp only [facetLines, List.filter_cons, h1, h2, h3, h4, h5, List.filter_nil]
    simp
    omega

/-- A printed vector contains no newline when the number formatter emits none. -/
theorem print_no_newline {α : Type} (fmt : α → String) (hfmt : ∀ x, '\n' ∉ (fmt x).data)
    (v : vec α) : '\n' ∉ (v.print fmt).data := by
  have hb : '\n' ∉ " ".data := by decide
  simp only [vec.print, String.data_append, List.mem_append, not_or]
  exact ⟨⟨⟨⟨⟨hfmt _, hb⟩, hfmt _⟩, hb⟩, hfmt _⟩, hb⟩

/-- No line of a facet block contains a newline when the number formatter emits none. -/
theorem facetLines_no_newline {α : Type} [Add α] [Sub α] [Mul α] [Div α] (fmt : α → String)
    (sqrt : α → α)
    (hfmt : ∀ x, '\n' ∉ (fmt x).data) (ts : List (Triangle α)) :
    ∀ l ∈ ts.flatMap (facetLines fmt sqrt), '\n' ∉ l.data := by
  have k1 : '\n' ∉ "   facet normal ".data := by decide
  have k2 : '\n' ∉ "      outer loop".data := by decide
  have k3 : '\n' ∉ "         vertex ".data := by decide
  have k4 : '\n' ∉ "      endloop".data := by decide
  have k5 : '\n' ∉ "   endfacet".data := by decide
  intro l hl
  obtain ⟨t, -, hlt⟩ := List.mem_flatMap.1 hl
  simp only [facetLines, List.mem_cons, List.mem_nil_iff, or_false] at hlt
  rcases hlt with h | h | h | h | h | h | h <;> subst h <;>
    simp only [String.data_append, List.mem_append, not_or] <;>
    first
      | exact k2
      | exact k4
      | exact k5
      | exact ⟨k1, print_no_newline fmt hfmt _⟩
      | exact ⟨k3, print_no_newline fmt hfmt _⟩

/-- The text of newline-free lines has exactly one newline per line. -/
theorem count_newline_unlines (ls : List String) (h : ∀ l ∈ ls, '\n' ∉ l.data) :
    List.count '\n' (unlines ls).data = ls.length := by
  induction ls with
  | nil => rfl
  | cons l ls ih =>
    have hl : List.count '\n' l.data = 0 := List.count_eq_zero.2 (h l (List.mem_cons_self _ _))
    have hn : List.count '\n' "\n".data = 1 := by decide
    simp only [unlines, String.data_append, List.count_append, hl, hn,
      ih (fun l hl => h l (List.mem_cons_of_mem _ hl)), List.length_cons]
    omega

/-- C5: for the triangle `t` at any position of the mesh (after the triangles `a`, before the
triangles `b`) with non-zero cross product `(v2 - v1) * (v3 - v1) = (cx, cy, cz)`, the block
`draw` writes for `t`, after `solid` and the `7 * length a` lines of the blocks of `a`, starts
with the line `facet normal` holding the three numbers `cx / l`, `cy / l`, `cz / l`, where
`l = sqrt(cx^2 + cy^2 + cz^2)` is the Euclidean length of the cross product. Over the reals
this vector has Euclidean norm exactly 1 and is orthogonal to both edges `v2 - v1` and
`v3 - v1`. -/
theorem draw_normal_is_unit (fmt : ℝ → String) (stl : STL ℝ) (a b : List (Triangle ℝ))
    (t : Triangle ℝ) (ht : stl.triangles = a ++ t :: b)
    (h : (t.v2 - t.v1) * (t.v3 - t.v1) ≠ ⟨0, 0, 0⟩) :
    let cx := (t.v2.y - t.v1.y) * (t.v3.z - t.v1.z) - (t.v2.z - t.v1.z) * (t.v3.y - t.v1.y)
    let cy := (t.v2.z - t.v1.z) * (t.v3.x - t.v1.x) - (t.v2.x - t.v1.x) * (t.v3.z - t.v1.z)
    let cz := (t.v2.x - t.v1.x) * (t.v3.y - t.v1.y) - (t.v2.y - t.v1.y) * (t.v3.x - t.v1.x)
    let l := Real.sqrt (cx * cx + cy * cy + cz * cz)
    stl.draw fmt Real.sqrt true = .ok ⟨true, unlines
        (["solid"] ++ a.flatMap (facetLines fmt Real.sqrt)
          ++ ["   facet normal " ++ fmt (cx / l) ++ " " ++ fmt (cy / l) ++ " " ++ fmt (cz / l)
                ++ " ",
              "      outer loop",
              "         vertex " ++ fmt t.v1.x ++ " " ++ fmt t.v1.y ++ " " ++ fmt t.v1.z ++ " ",
              "         vertex " ++ fmt t.v2.x ++ " " ++ fmt t.v2.y ++ " " ++ fmt t.v2.z ++ " ",
              "         vertex " ++ fmt t.v3.x ++ " " ++ fmt t.v3.y ++ " " ++ fmt t.v3.z ++ " ",
              "      endloop",
              "   endfacet"]
          ++ b.flatMap (facetLines fmt Real.sqrt) ++ ["endsolid"])⟩
      ∧ (a.flatMap (facetLines fmt Real.sqrt)).length = 7 * a.length
      ∧ (t.v2 - t.v1) * (t.v3 - t.v1) = ⟨cx, cy, cz⟩
      ∧ t.unitNormal Real.sqrt = ⟨cx / l, cy / l, cz / l⟩
      ∧ 0 < l
      ∧ (cx / l) * (cx / l) + (cy / l) * (cy / l) + (cz / l) * (cz / l) = 1
      ∧ Real.sqrt ((cx / l) * (cx / l) + (cy / l) * (cy / l) + (cz / l) * (cz / l)) = 1
      ∧ (cx / l) * (t.v2.x - t.v1.x) + (cy / l) * (t.v2.y - t.v1.y)
          + (cz / l) * (t.v2.z - t.v1.z) = 0
      ∧ (cx / l) * (t.v3.x - t.v1.x) + (cy / l) * (t.v3.y - t.v1.y)
          + (cz / l) * (t.v3.z - t.v1.z) = 0 := by
  intro cx cy cz l
  have hc : (t.v2 - t.v1) * (t.v3 - t.v1) = ⟨cx, cy, cz⟩ := rfl
  have hs : 0 < cx * cx + cy * cy + cz * cz := by
    have := normsq_pos_of_ne_zero _ h
    rw [hc] at this
    exact this
  have hl : 0 < l := Real.sqrt_pos.2 hs
  have hl2 : l * l = cx * cx + cy * cy + cz * cz := Real.mul_self_sqrt hs.le
  have hu : t.unitNormal Real.sqrt = ⟨cx / l, cy / l, cz / l⟩ := rfl
  have h1 : (cx / l) * (cx / l) + (cy / l) * (cy / l) + (cz / l) * (cz / l) = 1 := by
    field_simp
    linarith [hl2]
  refine ⟨?_, length_facetLines fmt Real.sqrt a, hc, hu, hl, h1, ?_, ?_, ?_⟩
  · rw [STL.draw_good, ht]
    simp only [fileLines, List.flatMap_append, List.flatMap_cons, facetLines, hu, vec.print,
      String.append_assoc, List.append_assoc, List.cons_append, List.nil_append]
  · rw [h1, Real.sqrt_one]
  · field_simp
    ring
  · field_simp
    ring

/-- Witness for C5: the mesh holding the single triangle `(0,0,0), (1,0,0), (0,1,0)`, whose
cross product is `(0,0,1)`. -/
theorem draw_normal_is_unit_witness :
    (STL.mk [(⟨⟨0, 0, 0⟩, ⟨1, 0, 0⟩, ⟨0, 1, 0⟩⟩ : Triangle ℝ)]).triangles
        = [] ++ (⟨⟨0, 0, 0⟩, ⟨1, 0, 0⟩, ⟨0, 1, 0⟩⟩ : Triangle ℝ) :: []
      ∧ ((⟨1, 0, 0⟩ : vec ℝ) - ⟨0, 0, 0⟩) * ((⟨0, 1, 0⟩ : vec ℝ) - ⟨0, 0, 0⟩) ≠ ⟨0, 0, 0⟩
      ∧ ((⟨1, 0, 0⟩ : vec ℝ) - ⟨0, 0, 0⟩) * ((⟨0, 1, 0⟩ : vec ℝ) - ⟨0, 0, 0⟩)
          = ⟨((0 : ℝ) - 0) * (0 - 0) - (0 - 0) * (1 - 0),
             ((0 : ℝ) - 0) * (0 - 0) - (1 - 0) * (0 - 0),
             ((1 : ℝ) - 0) * (1 - 0) - (0 - 0) * (0 - 0)⟩ :=
  ⟨rfl, by simp [vec.sub_def, vec.cross_def],
   (draw_normal_is_unit (fun _ => "0")
      (STL.mk [(⟨⟨0, 0, 0⟩, ⟨1, 0, 0⟩, ⟨0, 1, 0⟩⟩ : Triangle ℝ)]) [] []
      ⟨⟨0, 0, 0⟩, ⟨1, 0, 0⟩, ⟨0, 1, 0⟩⟩ rfl
      (by simp [vec.sub_def, vec.cross_def])).2.2.1⟩

/-- C9: when the file can be opened, the text `draw` produces is the line `solid`, then the
facet block of every stored triangle in insertion order, then the line `endsolid`. The block of
a triangle is the seven lines `facet normal <n>`, `outer loop`, three `vertex` lines, `endloop`,
`endfacet`; a `vertex` line holds the three coordinates of the vertex, each followed by a
blank, for `v1`, `v2`, `v3` in their stored order, and `<n>` the three components of
`(v2 - v1) * (v3 - v1)` divided by `sqrt` of the sum of their squares. For `k` triangles there
are `7 k + 2` lines, `k` of them `facet normal` lines (12 for the lone cube of `main`); when
the number formatter emits no newline, no line contains one and the text has `7 k + 2`
newlines. The statement holds for every scalar type, the program's `double` included. -/
theorem draw_text_structure {α : Type} [Add α] [Sub α] [Mul α] [Div α] [Zero α]
    [OfScientific α] [IntCast α] [NatCast α] (fmt : α → String) (sqrt : α → α) (stl : STL α) :
    stl.draw fmt sqrt true = .ok ⟨true, unlines (fileLines fmt sqrt stl.triangles)⟩
      ∧ fileLines fmt sqrt stl.triangles
          = ["solid"] ++ stl.triangles.flatMap (facetLines fmt sqrt) ++ ["endsolid"]
      ∧ (∀ t : Triangle α,
          let cx := (t.v2.y - t.v1.y) * (t.v3.z - t.v1.z) - (t.v2.z - t.v1.z) * (t.v3.y - t.v1.y)
          let cy := (t.v2.z - t.v1.z) * (t.v3.x - t.v1.x) - (t.v2.x - t.v1.x) * (t.v3.z - t.v1.z)
          let cz := (t.v2.x - t.v1.x) * (t.v3.y - t.v1.y) - (t.v2.y - t.v1.y) * (t.v3.x - t.v1.x)
          let l := sqrt (cx * cx + cy * cy + cz * cz)
          facetLines fmt sqrt t
            = ["   facet normal " ++ fmt (cx / l) ++ " " ++ fmt (cy / l) ++ " " ++ fmt (cz / l)
                  ++ " ",
               "      outer loop",
               "         vertex " ++ fmt t.v1.x ++ " " ++ fmt t.v1.y ++ " " ++ fmt t.v1.z ++ " ",
               "         vertex " ++ fmt t.v2.x ++ " " ++ fmt t.v2.y ++ " " ++ fmt t.v2.z ++ " ",
               "         vertex " ++ fmt t.v3.x ++ " " ++ fmt t.v3.y ++ " " ++ fmt t.v3.z ++ " ",
               "      endloop",
               "   endfacet"])
      ∧ (fileLines fmt sqrt stl.triangles).length = 7 * stl.triangles.length + 2
      ∧ ((fileLines fmt sqrt stl.triangles).filter isFacetNormalLine).length
          = stl.triangles.length
      ∧ ((∀ x, '\n' ∉ (fmt x).data) →
          (∀ l ∈ fileLines fmt sqrt stl.triangles, '\n' ∉ l.data)
            ∧ List.count '\n' (unlines (fileLines fmt sqrt stl.triangles)).data
                = 7 * stl.triangles.length + 2)
      ∧ (∀ atan cos sin : α → α,
          Driver.main fmt sqrt atan cos sin true
              = .ok ⟨true, unlines (fileLines fmt sqrt (Driver.mesh atan cos sin).triangles)⟩
            ∧ (Driver.mesh atan cos sin).triangles.length = 12
            ∧ ((fileLines fmt sqrt (Driver.mesh atan cos sin).triangles).filter
                isFacetNormalLine).length = 12) := by
  have hlen : (fileLines fmt sqrt stl.triangles).length = 7 * stl.triangles.length + 2 := by
    simp only [fileLines, List.length_append, length_facetLines, List.length_cons,
      List.length_nil]
    omega
  have hcount : ∀ ts : List (Triangle α),
      ((fileLines fmt sqrt ts).filter isFacetNormalLine).length = ts.length := by
    intro ts
    have a1 : isFacetNormalLine "solid" = false := by decide
    have a2 : isFacetNormalLine "endsolid" = false := by decide
    simp only [fileLines, List.filter_append, List.length_append, count_facetNormal,
      List.filter_cons, a1, a2, List.filter_nil]
    simp
  have hnl : (∀ x, '\n' ∉ (fmt x).data) →
      ∀ l ∈ fileLines fmt sqrt stl.triangles, '\n' ∉ l.data := by
    intro hfmt l hl
    simp only [fileLines, List.mem_append, List.mem_cons, List.mem_nil_iff, or_false] at hl
    rcases hl with (h | h) | h
    · subst h; decide
    · exact facetLines_no_newline fmt sqrt hfmt _ l h
    · subst h; decide
  have h12 : ∀ atan cos sin : α → α, (Driver.mesh atan cos sin).triangles.length = 12 := by
    intro atan cos sin
    simp only [Driver.mesh, STL.add, Shape.addToPlot, Cube.addToPlot_faces]
    simp [STL.empty, faceTriangles]
  refine ⟨STL.draw_good fmt sqrt stl, rfl, ?_, hlen, hcount _, ?_, ?_⟩
  · intro t
    simp only [facetLines, Triangle.unitNormal, vec.print, len, normsq, vec.cross_def,
      vec.sub_def, vec.div_def, String.append_assoc]
  · intro hfmt
    exact ⟨hnl hfmt, by rw [count_newline_unlines _ (hnl hfmt), hlen]⟩
  · intro atan cos sin
    refine ⟨STL.draw_good fmt sqrt _, h12 atan cos sin, ?_⟩
    rw [hcount, h12]

/-- Witness for C9: the mesh of `main` on the program's `double` with a formatter that prints
every number as `0`; the file has `7 * 12 + 2` newlines. -/
theorem draw_text_structure_witness :
    (∀ x : double, '\n' ∉ ((fun _ => "0") x : String).data)
      ∧ List.count '\n'
          (unlines (fileLines (fun _ => "0") double.sqrt
            (Driver.mesh id id id : STL double).triangles)).data
          = 7 * (Driver.mesh id id id : STL double).triangles.length + 2 :=
  ⟨fun _ => (by decide : '\n' ∉ ("0" : String).data),
   ((draw_text_structure (fun _ => "0") double.sqrt
      (Driver.mesh id id id : STL double)).2.2.2.2.2.1
      (fun _ => (by decide : '\n' ∉ ("0" : String).data))).2⟩

/-- C10, as the code behaves: when the destination file cannot be opened, `draw` reports no
failure. It returns normally to its caller with the stream in its failed state and nothing
written. -/
theorem draw_unwritable_returns_normally {α : Type} [Field α] (fmt : α → String)
    (sqrt : α → α) (stl : STL α) :
    stl.draw fmt sqrt false = .ok ⟨false, ""⟩
      ∧ ∀ e : ios_failure, stl.draw fmt sqrt false ≠ .error e := by
  rw [STL.draw_failed]
  exact ⟨rfl, fun e h => by cases h⟩

/-- C10 fails as stated: running `main` with an unwritable destination does not end in an
error surfaced to the caller. -/
theorem draw_unwritable_no_error :
    ¬ ∃ e : ios_failure,
        Driver.main (fun (_ : ℚ) => "0") id id id id false = .error e := by
  rintro ⟨e, h⟩
  simp only [Driver.main] at h
  rw [STL.draw_failed] at h
  cases h

/-! ### Shared lemmas on the cylinder over the reals -/

/-- Over the reals `PI` is the number pi. -/
theorem PI_real : PI Real.arctan = Real.pi := by
  simp only [PI]
  norm_num [Real.arctan_one]
  ring

/-- Over the reals the start point `bottom + side1` is the circumference point of angle `0`,
so the point held in `v1` during iteration `n` is always the point of counter `n - 1`. -/
theorem Cylinder.previous_real (C : Cylinder ℝ) (n : Int) :
    C.previous Real.arctan Real.cos Real.sin n = C.point Real.arctan Real.cos Real.sin (n - 1) := by
  unfold Cylinder.previous
  split
  · next h =>
    subst h
    simp [Cylinder.point, vec.add_def, vec.smul_def]
  · rfl

/-- Over the reals the angle between consecutive circumference points has positive sine as soon
as there are at least three faces. -/
theorem Cylinder.sin_step_pos (C : Cylinder ℝ) (hn : 3 ≤ C.nface) (k : Int) :
    0 < Real.sin (((k : Int) : ℝ) * C.dtheta Real.arctan) * Real.cos (((k - 1 : Int) : ℝ) * C.dtheta Real.arctan)
      - Real.cos (((k : Int) : ℝ) * C.dtheta Real.arctan) * Real.sin (((k - 1 : Int) : ℝ) * C.dtheta Real.arctan) := by
  have h3 : (3 : ℝ) ≤ (C.nface : ℝ) := by exact_mod_cast hn
  have hd : C.dtheta Real.arctan = 2 * Real.pi / (C.nface : ℝ) := by
    simp only [Cylinder.dtheta, PI_real]
    norm_num
  have hpos : 0 < C.dtheta Real.arctan := by
    rw [hd]; exact div_pos (by positivity) (by linarith)
  have hlt : C.dtheta Real.arctan < Real.pi := by
    rw [hd, div_lt_iff₀ (by linarith)]
    nlinarith [Real.pi_pos]
  have hs := Real.sin_pos_of_pos_of_lt_pi hpos hlt
  have he : ((k : Int) : ℝ) * C.dtheta Real.arctan - ((k - 1 : Int) : ℝ) * C.dtheta Real.arctan
      = C.dtheta Real.arctan := by
    push_cast; ring
  rw [← Real.sin_sub, he]
  exact hs

/-! ### The claims on the axis-aligned cylinder -/

/-- C7: for the axis-aligned `Cylinder(c, r, h, n)` with `r > 0`, `h > 0`, `n >= 3`, over the
reals with the real `atan`, `cos`, `sin`, every emitted triangle has an outward normal
`(v2 - v1) * (v3 - v1)`: a side triangle's normal has zero `z` component and strictly positive
dot product with the radial offset from the axis of each of its vertices and of its centroid;
a bottom-cap normal is a strictly negative multiple of `(0,0,1)` and a top-cap normal a
strictly positive multiple of `(0,0,1)`. -/
theorem cylinder_normals_outward (c : vec ℝ) (r h : ℝ) (n : Int) (hr : 0 < r) (hh : 0 < h)
    (hn : 3 ≤ n) :
    ((Cylinder.ofRadius c r h n).addToPlot Real.arctan Real.cos Real.sin STL.empty).triangles
        = (Cylinder.ofRadius c r h n).counters.flatMap
            ((Cylinder.ofRadius c r h n).stepTriangles Real.arctan Real.cos Real.sin)
      ∧ (Cylinder.ofRadius c r h n).counters.length = n.toNat
      ∧ ∀ k ∈ (Cylinder.ofRadius c r h n).counters,
          (∀ t ∈ (Cylinder.ofRadius c r h n).sideTriangles Real.arctan Real.cos Real.sin k,
              t.normal.z = 0
                ∧ (∀ v ∈ t.vertices, 0 < vec.dot t.normal ⟨v.x - c.x, v.y - c.y, 0⟩)
                ∧ 0 < vec.dot t.normal ⟨t.centroid.x - c.x, t.centroid.y - c.y, 0⟩)
            ∧ (∃ s : ℝ, 0 < s
                ∧ ((Cylinder.ofRadius c r h n).bottomCap Real.arctan Real.cos Real.sin k).normal
                    = (-s) * (⟨0, 0, 1⟩ : vec ℝ)
                ∧ ((Cylinder.ofRadius c r h n).topCap Real.arctan Real.cos Real.sin k).normal
                    = s * (⟨0, 0, 1⟩ : vec ℝ)) := by
  refine ⟨?_, by simp only [Cylinder.counters, List.length_map, List.length_range,
    Cylinder.ofRadius], ?_⟩
  · rw [Cylinder.addToPlot_steps]; simp [STL.empty]
  · intro k _
    have hS := Cylinder.sin_step_pos (Cylinder.ofRadius c r h n) hn k
    have hrr : 0 < r * r := mul_pos hr hr
    have hP := mul_pos hrr hS
    have hQ := mul_pos hh hP
    simp only [Cylinder.sideTriangles, Cylinder.bottomCap, Cylinder.topCap,
      Cylinder.previous_real, Cylinder.point, Cylinder.bottom, Cylinder.top, faceTriangles,
      List.mem_cons, List.mem_nil_iff, or_false, forall_eq_or_imp, forall_eq, Triangle.normal,
      Triangle.vertices, Triangle.centroid, vec.dot, vec.add_def, vec.sub_def, vec.smul_def,
      vec.div_def, vec.cross_def, vec.mk.injEq] at hS hP hQ ⊢
    simp only [Cylinder.ofRadius] at hS hP hQ ⊢
    generalize Real.sin ((k : ℝ) * _) = sb at hS hP hQ ⊢
    generalize Real.cos ((k : ℝ) * _) = cb at hS hP hQ ⊢
    generalize Real.sin (((k - 1 : Int) : ℝ) * _) = sa at hS hP hQ ⊢
    generalize Real.cos (((k - 1 : Int) : ℝ) * _) = ca at hS hP hQ ⊢
    refine ⟨⟨⟨?_, ⟨?_, ?_, ?_⟩, ?_⟩, ⟨?_, ⟨?_, ?_, ?_⟩, ?_⟩⟩,
      ⟨r * r * (sb * ca - cb * sa), hP, ⟨?_, ?_, ?_⟩, ⟨?_, ?_, ?_⟩⟩⟩
    all_goals first
      | ring1
      | (convert hQ using 1; ring1)

/-- Witness for C7: the cylinder `Cylinder((0,0,0), 20, 30, 4)` of the end-to-end scenario. -/
theorem cylinder_normals_outward_witness :
    (0 : ℝ) < 20 ∧ (0 : ℝ) < 30 ∧ (3 : Int) ≤ 4
      ∧ ∀ k ∈ (Cylinder.ofRadius (⟨0, 0, 0⟩ : vec ℝ) 20 30 4).counters,
          ∃ s : ℝ, 0 < s
            ∧ ((Cylinder.ofRadius (⟨0, 0, 0⟩ : vec ℝ) 20 30 4).bottomCap
                  Real.arctan Real.cos Real.sin k).normal = (-s) * (⟨0, 0, 1⟩ : vec ℝ)
            ∧ ((Cylinder.ofRadius (⟨0, 0, 0⟩ : vec ℝ) 20 30 4).topCap
                  Real.arctan Real.cos Real.sin k).normal = s * (⟨0, 0, 1⟩ : vec ℝ) :=
  ⟨by norm_num, by norm_num, by decide,
   fun k hk => ((cylinder_normals_outward ⟨0, 0, 0⟩ 20 30 4 (by norm_num) (by norm_num)
      (by decide)).2.2 k hk).2⟩

/-- C8, over exact real arithmetic: for the axis-aligned `Cylinder(c, r, h, n)` with `n >= 1`,
whatever `cos` and `sin` return, the three vertices of every bottom-cap triangle have
`z = c.z - h/2`, the three vertices of every top-cap triangle have `z = c.z + h/2`, and every
vertex of every side triangle has one of these two heights. -/
theorem cylinder_cap_heights (atan cos sin : ℝ → ℝ) (c : vec ℝ) (r h : ℝ) (n : Int)
    (hn : 1 ≤ n) :
    ((Cylinder.ofRadius c r h n).addToPlot atan cos sin STL.empty).triangles
        = (Cylinder.ofRadius c r h n).counters.flatMap
            ((Cylinder.ofRadius c r h n).stepTriangles atan cos sin)
      ∧ (Cylinder.ofRadius c r h n).counters ≠ []
      ∧ ∀ k ∈ (Cylinder.ofRadius c r h n).counters,
          (∀ v ∈ ((Cylinder.ofRadius c r h n).bottomCap atan cos sin k).vertices,
              v.z = c.z - h / 2)
            ∧ (∀ v ∈ ((Cylinder.ofRadius c r h n).topCap atan cos sin k).vertices,
              v.z = c.z + h / 2)
            ∧ (∀ t ∈ (Cylinder.ofRadius c r h n).sideTriangles atan cos sin k,
              ∀ v ∈ t.vertices, v.z = c.z - h / 2 ∨ v.z = c.z + h / 2) := by
  refine ⟨?_, ?_, ?_⟩
  · rw [Cylinder.addToPlot_steps]; simp [STL.empty]
  · intro hc
    have hl : (Cylinder.ofRadius c r h n).counters.length = n.toNat := by
      simp only [Cylinder.counters, List.length_map, List.length_range, Cylinder.ofRadius]
    rw [hc] at hl
    simp only [List.length_nil] at hl
    omega
  · intro k _
    have hp : ∀ j : Int, ((Cylinder.ofRadius c r h n).point atan cos sin j).z = c.z - h / 2 := by
      intro j
      simp only [Cylinder.point, Cylinder.bottom, Cylinder.ofRadius, vec.add_def, vec.sub_def,
        vec.smul_def]
      norm_num
      ring
    have hq : ((Cylinder.ofRadius c r h n).previous atan cos sin k).z = c.z - h / 2 := by
      unfold Cylinder.previous
      split
      · simp only [Cylinder.bottom, Cylinder.ofRadius, vec.add_def, vec.sub_def, vec.smul_def]
        norm_num
        ring
      · exact hp _
    have hb : (Cylinder.ofRadius c r h n).bottom.z = c.z - h / 2 := by
      simp only [Cylinder.bottom, Cylinder.ofRadius, vec.sub_def, vec.smul_def]
      norm_num
      ring
    have h3 : (Cylinder.ofRadius c r h n).side3.z = h := rfl
    have e : c.z - h / 2 + h = c.z + h / 2 := by ring
    simp only [Cylinder.sideTriangles, Cylinder.bottomCap, Cylinder.topCap, Cylinder.top,
      faceTriangles, List.mem_cons, List.mem_nil_iff, or_false, forall_eq_or_imp, forall_eq,
      Triangle.vertices, vec.add_def, hp, hq, hb, h3, e, true_or, or_true, and_self]

/-- Witness for C8: `Cylinder((0,0,0), 20, 30, 4)` has its bottom cap at `z = -15` and its top
cap at `z = +15`. -/
theorem cylinder_cap_heights_witness :
    (1 : Int) ≤ 4
      ∧ ∀ k ∈ (Cylinder.ofRadius (⟨0, 0, 0⟩ : vec ℝ) 20 30 4).counters,
          (∀ v ∈ ((Cylinder.ofRadius (⟨0, 0, 0⟩ : vec ℝ) 20 30 4).bottomCap
                Real.arctan Real.cos Real.sin k).vertices, v.z = -15)
            ∧ (∀ v ∈ ((Cylinder.ofRadius (⟨0, 0, 0⟩ : vec ℝ) 20 30 4).topCap
                Real.arctan Real.cos Real.sin k).vertices, v.z = 15) :=
  ⟨by decide, fun k hk =>
    ⟨fun v hv => by
        rw [((cylinder_cap_heights Real.arctan Real.cos Real.sin ⟨0, 0, 0⟩ 20 30 4
          (by decide)).2.2 k hk).1 v hv]
        norm_num,
     fun v hv => by
        rw [((cylinder_cap_heights Real.arctan Real.cos Real.sin ⟨0, 0, 0⟩ 20 30 4
          (by decide)).2.2 k hk).2.1 v hv]
        norm_num⟩⟩

/-! ### Shared lemmas on the arithmetic of `double` -/

/-- Rounding commutes with the sign. -/
theorem double.round_neg (s : Bool) (n d : Nat) :
    double.round (!s) n d = double.neg (double.round s n d) := by
  unfold double.round
  dsimp only
  split_ifs <;> rfl

/-- Multiplication of doubles is commutative. -/
theorem double.mul_comm' (a b : double) : double.mul a b = double.mul b a := by
  cases a with
  | finite sa ma ea =>
    cases b with
    | finite sb mb eb =>
      simp only [double.mul]
      rw [Nat.mul_comm ma mb, Int.add_comm ea eb]
      cases sa <;> cases sb <;> rfl
    | inf sb => cases sa <;> cases sb <;> rfl
    | nan => rfl
  | inf sa =>
    cases b with
    | finite sb mb eb => cases sa <;> cases sb <;> rfl
    | inf sb => cases sa <;> cases sb <;> rfl
    | nan => rfl
  | nan => cases b <;> rfl

/-- The negation of a rounded value, for either sign. -/
theorem double.round_true (n d : Nat) :
    double.round true n d = double.neg (double.round false n d) :=
  double.round_neg false n d

/-- The negation of a rounded value, for either sign. -/
theorem double.round_false (n d : Nat) :
    double.round false n d = double.neg (double.round true n d) :=
  double.round_neg true n d

/-- Swapping the operands of a subtraction negates the result. -/
theorem double.sub_swap (p q : double) : double.isNegOf (q - p) (p - q) := by
  show double.isNegOf (double.add q (double.neg p)) (double.add p (double.neg q))
  cases p with
  | finite sa ma ea =>
    cases q with
    | finite sb mb eb =>
      simp only [double.neg, double.add, Int.min_comm eb ea]
      generalize ma * 2 ^ (ea - ea ⊓ eb).toNat = A
      generalize mb * 2 ^ (eb - ea ⊓ eb).toNat = B
      generalize 2 ^ (ea ⊓ eb + 1074).toNat = E
      have hft : ¬ (false = true) := by decide
      have htf : ¬ (true = false) := by decide
      cases sa <;> cases sb <;>
        simp only [Bool.not_false, Bool.not_true, hft, htf, if_true, if_false]
      · rcases Nat.lt_trichotomy A B with h | h | h
        · simp only [h, Nat.lt_asymm h, if_true, if_false]
          exact Or.inl (double.round_false _ _)
        · subst h
          simp only [Nat.lt_irrefl, if_false]
          exact Or.inr ⟨rfl, rfl⟩
        · simp only [h, Nat.lt_asymm h, if_true, if_false]
          exact Or.inl (double.round_true _ _)
      · rw [Nat.add_comm B A]
        exact Or.inl (double.round_true _ _)
      · rw [Nat.add_comm B A]
        exact Or.inl (double.round_false _ _)
      · rcases Nat.lt_trichotomy A B with h | h | h
        · simp only [h, Nat.lt_asymm h, if_true, if_false]
          exact Or.inl (double.round_true _ _)
        · subst h
          simp only [Nat.lt_irrefl, if_false]
          exact Or.inr ⟨rfl, rfl⟩
        · simp only [h, Nat.lt_asymm h, if_true, if_false]
          exact Or.inl (double.round_false _ _)
    | inf sb => cases sa <;> cases sb <;> left <;> rfl
    | nan => left; rfl
  | inf sa =>
    cases q with
    | finite sb mb eb => cases sa <;> cases sb <;> left <;> rfl
    | inf sb => cases sa <;> cases sb <;> left <;> rfl
    | nan => left; rfl
  | nan => cases q <;> left <;> rfl

/-- The cross product of doubles is anti-commutative, component by component. -/
theorem double.cross_swap (a b : vec double) :
    double.isNegOf (b * a).x (a * b).x ∧ double.isNegOf (b * a).y (a * b).y
      ∧ double.isNegOf (b * a).z (a * b).z := by
  have hm : ∀ x y : double, x * y = y * x := fun x y => double.mul_comm' x y
  simp only [vec.cross_def]
  refine ⟨?_, ?_, ?_⟩
  · rw [hm b.y a.z, hm b.z a.y]; exact double.sub_swap _ _
  · rw [hm b.z a.x, hm b.x a.z]; exact double.sub_swap _ _
  · rw [hm b.x a.y, hm b.y a.x]; exact double.sub_swap _ _

/-! ### The claims on `addTriangle` and on the winding order -/

/-- C11: `addTriangle(v1,v2,v3)` increases the triangle count by exactly one, leaves every
stored triangle unchanged at its position, and the new last triangle is `(v1,v2,v3)` with the
vertices in the given order. -/
theorem addTriangle_frame {α : Type} (stl : STL α) (v1 v2 v3 : vec α) :
    (stl.addTriangle v1 v2 v3).triangles.length = stl.triangles.length + 1
      ∧ (stl.addTriangle v1 v2 v3).triangles.take stl.triangles.length = stl.triangles
      ∧ (∀ i : Fin stl.triangles.length,
          (stl.addTriangle v1 v2 v3).triangles[i.val]? = some (stl.triangles.get i))
      ∧ (stl.addTriangle v1 v2 v3).triangles.getLast? = some ⟨v1, v2, v3⟩
      ∧ (stl.addTriangle v1 v2 v3).triangles[stl.triangles.length]? = some ⟨v1, v2, v3⟩ := by
  refine ⟨?_, ?_, ?_, ?_, ?_⟩
  · simp [STL.addTriangle]
  · simp [STL.addTriangle]
  · intro i
    simp only [STL.addTriangle]
    rw [List.getElem?_append_left i.isLt]
    simp
  · simp [STL.addTriangle]
  · simp [STL.addTriangle]

/-- C16, as the code behaves: the cross product is anti-commutative, `cross(b,a) = -cross(a,b)`;
hence the un-normalised normal of the reversed winding `(v1,v3,v2)` is the exact negation of
that of `(v1,v2,v3)`. This holds over every field and, component by component, on the
program's `double` (where a component that is the difference of two equal numbers is `+0` in
both orders). Over exact arithmetic the cyclic rotation `(v2,v3,v1)` has the same normal as
`(v1,v2,v3)`. The normal is the vector `draw` divides by its length on line 88. -/
theorem winding_determines_sign {α : Type} [Field α] :
    (∀ a b : vec α, b * a = ⟨-(a * b).x, -(a * b).y, -(a * b).z⟩)
      ∧ (∀ a b : vec α, b * a = (-1 : α) * (a * b))
      ∧ (∀ v1 v2 v3 : vec α,
          (Triangle.mk v1 v3 v2).normal
            = ⟨-(Triangle.mk v1 v2 v3).normal.x, -(Triangle.mk v1 v2 v3).normal.y,
                -(Triangle.mk v1 v2 v3).normal.z⟩)
      ∧ (∀ v1 v2 v3 : vec α,
          (Triangle.mk v1 v3 v2).normal = (-1 : α) * (Triangle.mk v1 v2 v3).normal)
      ∧ (∀ v1 v2 v3 : vec α, (Triangle.mk v2 v3 v1).normal = (Triangle.mk v1 v2 v3).normal)
      ∧ (∀ (sqrt : α → α) (t : Triangle α), t.unitNormal sqrt = t.normal / len sqrt t.normal)
      ∧ (∀ a b : vec double,
          double.isNegOf (b * a).x (a * b).x ∧ double.isNegOf (b * a).y (a * b).y
            ∧ double.isNegOf (b * a).z (a * b).z)
      ∧ (∀ v1 v2 v3 : vec double,
          double.isNegOf (Triangle.mk v1 v3 v2).normal.x (Triangle.mk v1 v2 v3).normal.x
            ∧ double.isNegOf (Triangle.mk v1 v3 v2).normal.y (Triangle.mk v1 v2 v3).normal.y
            ∧ double.isNegOf (Triangle.mk v1 v3 v2).normal.z (Triangle.mk v1 v2 v3).normal.z)
      ∧ (∀ x y : double, double.isNegOf x y ↔ (x = double.neg y ∨ (x = 0 ∧ y = 0))) := by
  refine ⟨?_, ?_, ?_, ?_, ?_, fun _ _ => rfl, double.cross_swap,
    fun v1 v2 v3 => double.cross_swap (v2 - v1) (v3 - v1), fun _ _ => Iff.rfl⟩
  · intro a b
    simp only [vec.cross_def, vec.mk.injEq]
    refine ⟨?_, ?_, ?_⟩ <;> ring
  · intro a b
    simp only [vec.cross_def, vec.smul_def, vec.mk.injEq]
    refine ⟨?_, ?_, ?_⟩ <;> ring
  · intro v1 v2 v3
    simp only [Triangle.normal, vec.cross_def, vec.sub_def, vec.mk.injEq]
    refine ⟨?_, ?_, ?_⟩ <;> ring
  · intro v1 v2 v3
    simp only [Triangle.normal, vec.cross_def, vec.sub_def, vec.smul_def, vec.mk.injEq]
    refine ⟨?_, ?_, ?_⟩ <;> ring
  · intro v1 v2 v3
    simp only [Triangle.normal, vec.cross_def, vec.sub_def, vec.mk.injEq]
    refine ⟨?_, ?_, ?_⟩ <;> ring

/-- C16 fails as stated on the program's doubles, in its cyclic-rotation part: for
`v1 = (0.1,0.2,0.3)`, `v2 = (0.7,0.1,0.5)`, `v3 = (0.3,0.9,0.4)` the normal of `(v2,v3,v1)` has
`x = -0.15000000000000002` and that of `(v1,v2,v3)` has `x = -0.15`. -/
theorem cyclic_rotation_rounded :
    (Triangle.mk (⟨0.7, 0.1, 0.5⟩ : vec double) ⟨0.3, 0.9, 0.4⟩ ⟨0.1, 0.2, 0.3⟩).normal.x
        = -0.15000000000000002
      ∧ (Triangle.mk (⟨0.1, 0.2, 0.3⟩ : vec double) ⟨0.7, 0.1, 0.5⟩ ⟨0.3, 0.9, 0.4⟩).normal.x
        = -0.15
      ∧ (Triangle.mk (⟨0.7, 0.1, 0.5⟩ : vec double) ⟨0.3, 0.9, 0.4⟩ ⟨0.1, 0.2, 0.3⟩).normal
        ≠ (Triangle.mk (⟨0.1, 0.2, 0.3⟩ : vec double) ⟨0.7, 0.1, 0.5⟩ ⟨0.3, 0.9, 0.4⟩).normal := by
  decide!

/-! ### Shared lemmas on lengths over the reals -/

/-- Lagrange's identity for the cross product. -/
theorem normsq_cross {α : Type} [Field α] (a b : vec α) :
    normsq (a * b) = normsq a * normsq b - vec.dot a b * vec.dot a b := by
  simp only [normsq, vec.dot, vec.cross_def]
  ring

/-- Dividing a real vector by a positive scalar divides its squared length by the square. -/
theorem normsq_div (n : vec ℝ) (a : ℝ) : normsq (n / a) = normsq n / (a * a) := by
  simp only [normsq, vec.div_def]
  by_cases ha : a = 0
  · simp [ha]
  · field_simp

/-- The length of a non-zero real vector is positive. -/
theorem len_pos_of_ne_zero (n : vec ℝ) (h : n ≠ ⟨0, 0, 0⟩) : 0 < len Real.sqrt n :=
  Real.sqrt_pos.2 (normsq_pos_of_ne_zero n h)

/-- The squared length of a real vector is the square of its length. -/
theorem len_mul_self (n : vec ℝ) : len Real.sqrt n * len Real.sqrt n = normsq n := by
  have h : 0 ≤ normsq n := by
    simp only [normsq]
    nlinarith [mul_self_nonneg n.x, mul_self_nonneg n.y, mul_self_nonneg n.z]
  exact Real.mul_self_sqrt h

/-- A cross product with the zero vector on the left is zero, so a non-zero cross product has
a non-zero left factor. -/
theorem left_ne_zero_of_cross_ne_zero (a b : vec ℝ) (h : a * b ≠ ⟨0, 0, 0⟩) :
    a ≠ ⟨0, 0, 0⟩ := by
  intro ha
  apply h
  rw [ha]
  simp [vec.cross_def]

/-- For a non-zero vector `n` and positive `a`, `b`: `n / a` is `n / b` scaled by `a` exactly
when `b = a^2`. -/
theorem div_eq_scaled_unit_iff (n : vec ℝ) (hn : n ≠ ⟨0, 0, 0⟩) (a b : ℝ) (ha : 0 < a)
    (hb : 0 < b) : n / a = a * (n / b) ↔ b = a ^ 2 := by
  constructor
  · intro h
    simp only [vec.div_def, vec.smul_def, vec.mk.injEq] at h
    obtain ⟨hx, hy, hz⟩ := h
    by_contra hne
    have hd : b - a ^ 2 ≠ 0 := sub_ne_zero.2 hne
    have key : ∀ t : ℝ, t / a = a * (t / b) → t = 0 := by
      intro t ht
      field_simp at ht
      have : t * (b - a ^ 2) = 0 := by linear_combination ht
      rcases mul_eq_zero.1 this with h0 | h0
      · exact h0
      · exact absurd h0 hd
    obtain ⟨x, y, z⟩ := n
    exact hn (by rw [key x hx, key y hy, key z hz])
  · intro h
    subst h
    simp only [vec.div_def, vec.smul_def, vec.mk.injEq]
    refine ⟨?_, ?_, ?_⟩ <;> field_simp <;> ring

/-! ### The claims on the two-vector constructors -/

/-- C12, as the code behaves, over exact real arithmetic: for edge vectors `e1`, `e2` with
non-zero cross product the
two-vector constructor derives `e3 = cross(e1,e2) / len(e1)`. This is
`normalize(cross(e1,e2)) * len(e1)` exactly when `len(cross(e1,e2)) = len(e1)^2`, which holds
when `e1` and `e2` are perpendicular and of equal length. -/
theorem cube_third_side (c e1 e2 : vec ℝ) (h : e1 * e2 ≠ ⟨0, 0, 0⟩) :
    (Cube.ofSides Real.sqrt c e1 e2).side3 = (e1 * e2) / len Real.sqrt e1
      ∧ 0 < len Real.sqrt e1
      ∧ 0 < len Real.sqrt (e1 * e2)
      ∧ ((Cube.ofSides Real.sqrt c e1 e2).side3
            = len Real.sqrt e1 * ((e1 * e2) / len Real.sqrt (e1 * e2))
          ↔ len Real.sqrt (e1 * e2) = len Real.sqrt e1 ^ 2)
      ∧ (vec.dot e1 e2 = 0 → len Real.sqrt e2 = len Real.sqrt e1 →
          (Cube.ofSides Real.sqrt c e1 e2).side3
            = len Real.sqrt e1 * ((e1 * e2) / len Real.sqrt (e1 * e2))) := by
  have h1 := len_pos_of_ne_zero e1 (left_ne_zero_of_cross_ne_zero e1 e2 h)
  have hc := len_pos_of_ne_zero (e1 * e2) h
  have hiff := div_eq_scaled_unit_iff (e1 * e2) h _ _ h1 hc
  refine ⟨rfl, h1, hc, hiff, ?_⟩
  intro hd hl
  refine hiff.2 ?_
  have hn : normsq (e1 * e2) = (len Real.sqrt e1 ^ 2) * (len Real.sqrt e1 ^ 2) := by
    rw [normsq_cross, hd, ← len_mul_self e1, ← len_mul_self e2, hl]
    ring
  unfold len at hc ⊢
  rw [hn]
  exact Real.sqrt_mul_self (by positivity)

/-- Witness for C12: the perpendicular unit edges `(1,0,0)` and `(0,1,0)`. -/
theorem cube_third_side_witness :
    (⟨1, 0, 0⟩ : vec ℝ) * ⟨0, 1, 0⟩ ≠ ⟨0, 0, 0⟩
      ∧ (Cube.ofSides Real.sqrt ⟨0, 0, 0⟩ (⟨1, 0, 0⟩ : vec ℝ) ⟨0, 1, 0⟩).side3
          = ((⟨1, 0, 0⟩ : vec ℝ) * ⟨0, 1, 0⟩) / len Real.sqrt (⟨1, 0, 0⟩ : vec ℝ) :=
  ⟨by simp [vec.cross_def],
   (cube_third_side ⟨0, 0, 0⟩ ⟨1, 0, 0⟩ ⟨0, 1, 0⟩ (by simp [vec.cross_def])).1⟩

/-- C12 fails as stated: for `e1 = (1,0,0)`, `e2 = (0,2,0)` the cross product `(0,0,2)` is not
zero, the constructor yields `e3 = (0,0,2)`, and `normalize(cross(e1,e2)) * len(e1)` would be
`(0,0,1)`. -/
theorem cube_third_side_not_normalized :
    (⟨1, 0, 0⟩ : vec ℝ) * ⟨0, 2, 0⟩ ≠ ⟨0, 0, 0⟩
      ∧ (Cube.ofSides Real.sqrt ⟨0, 0, 0⟩ (⟨1, 0, 0⟩ : vec ℝ) ⟨0, 2, 0⟩).side3 = ⟨0, 0, 2⟩
      ∧ len Real.sqrt (⟨1, 0, 0⟩ : vec ℝ)
            * (((⟨1, 0, 0⟩ : vec ℝ) * ⟨0, 2, 0⟩) / len Real.sqrt ((⟨1, 0, 0⟩ : vec ℝ) * ⟨0, 2, 0⟩))
          = ⟨0, 0, 1⟩
      ∧ (Cube.ofSides Real.sqrt ⟨0, 0, 0⟩ (⟨1, 0, 0⟩ : vec ℝ) ⟨0, 2, 0⟩).side3
          ≠ len Real.sqrt (⟨1, 0, 0⟩ : vec ℝ)
              * (((⟨1, 0, 0⟩ : vec ℝ) * ⟨0, 2, 0⟩)
                  / len Real.sqrt ((⟨1, 0, 0⟩ : vec ℝ) * ⟨0, 2, 0⟩)) := by
  have s4 : Real.sqrt 4 = 2 := by
    rw [show (4 : ℝ) = 2 * 2 by norm_num]
    exact Real.sqrt_mul_self (by norm_num)
  have e3 : (Cube.ofSides Real.sqrt ⟨0, 0, 0⟩ (⟨1, 0, 0⟩ : vec ℝ) ⟨0, 2, 0⟩).side3
      = ⟨0, 0, 2⟩ := by
    simp [Cube.ofSides, len, normsq, vec.cross_def, vec.div_def]
  have en : len Real.sqrt (⟨1, 0, 0⟩ : vec ℝ)
        * (((⟨1, 0, 0⟩ : vec ℝ) * ⟨0, 2, 0⟩) / len Real.sqrt ((⟨1, 0, 0⟩ : vec ℝ) * ⟨0, 2, 0⟩))
      = ⟨0, 0, 1⟩ := by
    simp only [len, normsq, vec.cross_def, vec.div_def, vec.smul_def]
    norm_num [s4]
  refine ⟨by simp [vec.cross_def], e3, en, ?_⟩
  rw [e3, en]
  simp

/-- C13, over exact real arithmetic: for a non-zero radial vector `r1` and a non-zero axial
vector `a3` that are
perpendicular, the second radial vector `r2 = cross(a3, r1) / len(a3)` derived by the
two-vector `Cylinder` constructor has the same length as `r1` and is perpendicular to both
`r1` and `a3`. -/
theorem cylinder_second_radial (c r1 a3 : vec ℝ) (n : Int) (h1 : r1 ≠ ⟨0, 0, 0⟩)
    (h3 : a3 ≠ ⟨0, 0, 0⟩) (hp : vec.dot r1 a3 = 0) :
    (Cylinder.ofAxes Real.sqrt c r1 a3 n).side1 = r1
      ∧ (Cylinder.ofAxes Real.sqrt c r1 a3 n).side3 = a3
      ∧ (Cylinder.ofAxes Real.sqrt c r1 a3 n).side2 = (a3 * r1) / len Real.sqrt a3
      ∧ 0 < len Real.sqrt r1
      ∧ len Real.sqrt (Cylinder.ofAxes Real.sqrt c r1 a3 n).side2 = len Real.sqrt r1
      ∧ vec.dot (Cylinder.ofAxes Real.sqrt c r1 a3 n).side2 r1 = 0
      ∧ vec.dot (Cylinder.ofAxes Real.sqrt c r1 a3 n).side2 a3 = 0 := by
  have hl := len_pos_of_ne_zero a3 h3
  have hs := normsq_pos_of_ne_zero a3 h3
  have hpc : vec.dot a3 r1 = 0 := by
    rw [← hp]; simp only [vec.dot]; ring
  refine ⟨rfl, rfl, rfl, len_pos_of_ne_zero r1 h1, ?_, ?_, ?_⟩
  · have hq : normsq (Cylinder.ofAxes Real.sqrt c r1 a3 n).side2 = normsq r1 := by
      simp only [Cylinder.ofAxes]
      rw [normsq_div, len_mul_self, normsq_cross, hpc]
      field_simp
    simp only [len, hq]
  · simp only [Cylinder.ofAxes]
    generalize len Real.sqrt a3 = l at hl
    simp only [vec.dot, vec.div_def, vec.cross_def]
    field_simp
    ring
  · simp only [Cylinder.ofAxes]
    generalize len Real.sqrt a3 = l at hl
    simp only [vec.dot, vec.div_def, vec.cross_def]
    field_simp
    ring

/-- Witness for C13: the vectors of `cylinder2` in `main`, radial `(20,20,0)` and axial
`(20,-20,0)`. -/
theorem cylinder_second_radial_witness :
    (⟨20, 20, 0⟩ : vec ℝ) ≠ ⟨0, 0, 0⟩ ∧ (⟨20, -20, 0⟩ : vec ℝ) ≠ ⟨0, 0, 0⟩
      ∧ vec.dot (⟨20, 20, 0⟩ : vec ℝ) ⟨20, -20, 0⟩ = 0
      ∧ len Real.sqrt (Cylinder.ofAxes Real.sqrt ⟨50, 50, 0⟩ (⟨20, 20, 0⟩ : vec ℝ)
          ⟨20, -20, 0⟩ 30).side2 = len Real.sqrt (⟨20, 20, 0⟩ : vec ℝ) :=
  ⟨by simp, by simp, by simp [vec.dot],
   (cylinder_second_radial ⟨50, 50, 0⟩ ⟨20, 20, 0⟩ ⟨20, -20, 0⟩ 30 (by simp) (by simp)
      (by simp [vec.dot])).2.2.2.2.1⟩

/-- C20: for `L > 0` the length constructor `Cube(c, L)` and the two-vector constructor
`Cube(c, (L,0,0), (0,L,0))` build the same object over the reals, with the same three side
vectors, and therefore add exactly the same list of 12 triangles to a mesh. -/
theorem cube_constructors_agree (c : vec ℝ) (L : ℝ) (hL : 0 < L) :
    Cube.ofSides Real.sqrt c ⟨L, 0, 0⟩ ⟨0, L, 0⟩ = Cube.ofLength c L
      ∧ len Real.sqrt (⟨L, 0, 0⟩ : vec ℝ) = L
      ∧ (Cube.ofSides Real.sqrt c ⟨L, 0, 0⟩ ⟨0, L, 0⟩).side1 = (Cube.ofLength c L).side1
      ∧ (Cube.ofSides Real.sqrt c ⟨L, 0, 0⟩ ⟨0, L, 0⟩).side2 = (Cube.ofLength c L).side2
      ∧ (Cube.ofSides Real.sqrt c ⟨L, 0, 0⟩ ⟨0, L, 0⟩).side3 = (Cube.ofLength c L).side3
      ∧ (∀ stl : STL ℝ, (Cube.ofSides Real.sqrt c ⟨L, 0, 0⟩ ⟨0, L, 0⟩).addToPlot stl
          = (Cube.ofLength c L).addToPlot stl)
      ∧ ((Cube.ofSides Real.sqrt c ⟨L, 0, 0⟩ ⟨0, L, 0⟩).addToPlot STL.empty).triangles
          = ((Cube.ofLength c L).addToPlot STL.empty).triangles
      ∧ ((Cube.ofLength c L).addToPlot STL.empty).triangles.length = 12 := by
  have hlen : len Real.sqrt (⟨L, 0, 0⟩ : vec ℝ) = L := by
    simp only [len, normsq, mul_zero, add_zero]
    exact Real.sqrt_mul_self hL.le
  have hC : Cube.ofSides Real.sqrt c ⟨L, 0, 0⟩ ⟨0, L, 0⟩ = Cube.ofLength c L := by
    simp only [Cube.ofSides, Cube.ofLength, hlen, vec.cross_def, vec.div_def, Cube.mk.injEq,
      vec.mk.injEq, true_and, and_true]
    refine ⟨?_, ?_, ?_⟩ <;> field_simp
  refine ⟨hC, hlen, by rw [hC], by rw [hC], by rw [hC], fun stl => by rw [hC], by rw [hC], ?_⟩
  rw [Cube.addToPlot_faces]
  simp [STL.empty, faceTriangles]

/-- Witness for C20: the cube of `main`, centre `(0,0,0)` and side length 25. -/
theorem cube_constructors_agree_witness :
    (0 : ℝ) < 25
      ∧ Cube.ofSides Real.sqrt (⟨0, 0, 0⟩ : vec ℝ) ⟨25, 0, 0⟩ ⟨0, 25, 0⟩
          = Cube.ofLength ⟨0, 0, 0⟩ 25 :=
  ⟨by norm_num, (cube_constructors_agree ⟨0, 0, 0⟩ 25 (by norm_num)).1⟩

/-- C15, over exact real arithmetic: degenerate cube inputs are tessellated without any failure
into 12 triangles of zero
area, that is with `(v2 - v1) * (v3 - v1)` the zero vector: the length constructor with
`L = 0`, and the two-vector constructor with `e1` non-zero and `e2` parallel to `e1` (their
cross product is zero, as for every multiple `t * e1`). -/
theorem degenerate_cube_zero_area (c e1 e2 : vec ℝ) (h1 : e1 ≠ ⟨0, 0, 0⟩)
    (hpar : e1 * e2 = ⟨0, 0, 0⟩) :
    (((Cube.ofLength c (0 : ℝ)).addToPlot STL.empty).triangles.length = 12
        ∧ ∀ t ∈ ((Cube.ofLength c (0 : ℝ)).addToPlot STL.empty).triangles,
            t.normal = ⟨0, 0, 0⟩)
      ∧ (0 < len Real.sqrt e1
        ∧ ((Cube.ofSides Real.sqrt c e1 e2).addToPlot STL.empty).triangles.length = 12
        ∧ ∀ t ∈ ((Cube.ofSides Real.sqrt c e1 e2).addToPlot STL.empty).triangles,
            t.normal = ⟨0, 0, 0⟩)
      ∧ (∀ s : ℝ, e1 * (s * e1) = ⟨0, 0, 0⟩) := by
  have h12 : ∀ C : Cube ℝ, (C.addToPlot STL.empty).triangles.length = 12 := by
    intro C
    rw [Cube.addToPlot_faces]
    simp [STL.empty, faceTriangles]
  refine ⟨⟨h12 _, ?_⟩, ⟨len_pos_of_ne_zero e1 h1, h12 _, ?_⟩, ?_⟩
  · rw [Cube.addToPlot_faces]
    simp only [STL.empty, List.nil_append, List.flatMap_cons, List.flatMap_nil, faceTriangles,
      List.append_nil, List.cons_append, List.nil_append, List.mem_cons, List.mem_nil_iff,
      or_false, forall_eq_or_imp, forall_eq, Cube.corners, Cube.ofLength, Triangle.normal,
      vec.add_def, vec.sub_def, vec.smul_def, vec.cross_def, vec.mk.injEq]
    and_intros <;> ring1
  · have hC : Cube.ofSides Real.sqrt c e1 e2 = ⟨c, len Real.sqrt e1, e1, e2, ⟨0, 0, 0⟩⟩ := by
      simp [Cube.ofSides, hpar, vec.div_def]
    simp only [vec.cross_def, vec.mk.injEq] at hpar
    obtain ⟨hx, hy, hz⟩ := hpar
    rw [hC, Cube.addToPlot_faces]
    simp only [STL.empty, List.nil_append, List.flatMap_cons, List.flatMap_nil, faceTriangles,
      List.append_nil, List.cons_append, List.nil_append, List.mem_cons, List.mem_nil_iff,
      or_false, forall_eq_or_imp, forall_eq, Cube.corners, Triangle.normal,
      vec.add_def, vec.sub_def, vec.smul_def, vec.cross_def, vec.mk.injEq]
    and_intros <;> first
      | ring1
      | linear_combination hx
      | linear_combination hy
      | linear_combination hz
      | linear_combination -hx
      | linear_combination -hy
      | linear_combination -hz
  · intro s
    simp only [vec.cross_def, vec.smul_def, vec.mk.injEq]
    refine ⟨?_, ?_, ?_⟩ <;> ring

/-- Witness for C15: `e1 = (1,0,0)` and the parallel `e2 = (2,0,0)`. -/
theorem degenerate_cube_zero_area_witness :
    (⟨1, 0, 0⟩ : vec ℝ) ≠ ⟨0, 0, 0⟩ ∧ (⟨1, 0, 0⟩ : vec ℝ) * ⟨2, 0, 0⟩ = ⟨0, 0, 0⟩
      ∧ ∀ t ∈ ((Cube.ofSides Real.sqrt ⟨0, 0, 0⟩ (⟨1, 0, 0⟩ : vec ℝ)
            ⟨2, 0, 0⟩).addToPlot STL.empty).triangles, t.normal = ⟨0, 0, 0⟩ :=
  ⟨by simp, by simp [vec.cross_def],
   (degenerate_cube_zero_area ⟨0, 0, 0⟩ ⟨1, 0, 0⟩ ⟨2, 0, 0⟩ (by simp)
      (by simp [vec.cross_def])).2.1.2.2⟩

/-! ### Shared lemmas on the circumference points over the reals -/

/-- Over the reals the angle step is `2 pi / nface`. -/
theorem Cylinder.dtheta_real (C : Cylinder ℝ) :
    C.dtheta Real.arctan = 2 * Real.pi / (C.nface : ℝ) := by
  simp only [Cylinder.dtheta, PI_real]
  norm_num

/-- The length of the zero vector is zero. -/
theorem len_zero_vec : len Real.sqrt (⟨0, 0, 0⟩ : vec ℝ) = 0 := by
  simp [len, normsq]

/-- C18: over the reals, cylinders with one or two faces (`r > 0`, `h > 0`) emit zero-area
triangles, for which the length `draw` divides by on line 88 is zero. For `n = 2` every
bottom-cap and top-cap triangle has `(v2 - v1) * (v3 - v1) = 0` (while the side triangles are
not degenerate); for `n = 1` all four emitted triangles have a zero cross product. -/
theorem cylinder_few_faces_degenerate (c : vec ℝ) (r h : ℝ) (hr : 0 < r) (hh : 0 < h) :
    ((Cylinder.ofRadius c r h 2).counters = [1, 2]
        ∧ ∀ k ∈ (Cylinder.ofRadius c r h 2).counters,
            ((Cylinder.ofRadius c r h 2).bottomCap Real.arctan Real.cos Real.sin k).normal
                = ⟨0, 0, 0⟩
              ∧ ((Cylinder.ofRadius c r h 2).topCap Real.arctan Real.cos Real.sin k).normal
                = ⟨0, 0, 0⟩
              ∧ len Real.sqrt
                  ((Cylinder.ofRadius c r h 2).bottomCap Real.arctan Real.cos Real.sin k).normal
                = 0
              ∧ len Real.sqrt
                  ((Cylinder.ofRadius c r h 2).topCap Real.arctan Real.cos Real.sin k).normal
                = 0
              ∧ ∀ t ∈ (Cylinder.ofRadius c r h 2).sideTriangles Real.arctan Real.cos Real.sin k,
                  t.normal ≠ ⟨0, 0, 0⟩)
      ∧ (((Cylinder.ofRadius c r h 1).addToPlot Real.arctan Real.cos Real.sin
              STL.empty).triangles.length = 4
        ∧ ∀ t ∈ ((Cylinder.ofRadius c r h 1).addToPlot Real.arctan Real.cos Real.sin
              STL.empty).triangles,
            t.normal = ⟨0, 0, 0⟩ ∧ len Real.sqrt t.normal = 0) := by
  have hrh : r * h ≠ 0 := (mul_pos hr hh).ne'
  have d2 : (Cylinder.ofRadius c r h 2).dtheta Real.arctan = Real.pi := by
    rw [Cylinder.dtheta_real]
    simp [Cylinder.ofRadius]
  have d1 : (Cylinder.ofRadius c r h 1).dtheta Real.arctan = 2 * Real.pi := by
    rw [Cylinder.dtheta_real]
    simp [Cylinder.ofRadius]
  have c2 : (Cylinder.ofRadius c r h 2).counters = [1, 2] := rfl
  have c1 : (Cylinder.ofRadius c r h 1).counters = [1] := rfl
  have e21 : (2 : Int) - 1 = 1 := rfl
  have n21 : ¬ ((2 : Int) = 1) := by decide
  refine ⟨⟨c2, ?_⟩, ?_⟩
  · have caps : ∀ k ∈ ([1, 2] : List Int),
        ((Cylinder.ofRadius c r h 2).bottomCap Real.arctan Real.cos Real.sin k).normal
            = ⟨0, 0, 0⟩
          ∧ ((Cylinder.ofRadius c r h 2).topCap Real.arctan Real.cos Real.sin k).normal
            = ⟨0, 0, 0⟩ := by
      simp only [List.mem_cons, List.mem_nil_iff, or_false, forall_eq_or_imp, forall_eq,
        Cylinder.bottomCap, Cylinder.topCap, Cylinder.previous, Cylinder.point, d2, e21, n21,
        if_true, if_false, Int.cast_one, Int.cast_ofNat, one_mul, Real.cos_pi, Real.sin_pi,
        Real.cos_two_pi, Real.sin_two_pi, Triangle.normal, Cylinder.top, Cylinder.bottom]
      simp only [Cylinder.ofRadius, vec.add_def, vec.sub_def, vec.smul_def, vec.cross_def,
        vec.mk.injEq]
      and_intros <;> ring1
    rw [c2]
    intro k hk
    obtain ⟨hb, ht⟩ := caps k hk
    refine ⟨hb, ht, by rw [hb, len_zero_vec], by rw [ht, len_zero_vec], ?_⟩
    simp only [List.mem_cons, List.mem_nil_iff, or_false] at hk
    rcases hk with rfl | rfl
    · simp only [Cylinder.sideTriangles, faceTriangles, List.mem_cons, List.mem_nil_iff,
        or_false, forall_eq_or_imp, forall_eq, Cylinder.previous, Cylinder.point, d2,
        if_true, Int.cast_one, one_mul, Real.cos_pi, Real.sin_pi, Triangle.normal,
        Cylinder.bottom]
      simp only [Cylinder.ofRadius, vec.add_def, vec.sub_def, vec.smul_def, vec.cross_def,
        ne_eq, vec.mk.injEq]
      refine ⟨?_, ?_⟩ <;> rintro ⟨_, hy, _⟩ <;> refine hrh ?_ <;>
        linear_combination (1 / 2 : ℝ) * hy
    · simp only [Cylinder.sideTriangles, faceTriangles, List.mem_cons, List.mem_nil_iff,
        or_false, forall_eq_or_imp, forall_eq, Cylinder.previous, Cylinder.point, d2, e21, n21,
        if_false, Int.cast_one, Int.cast_ofNat, one_mul, Real.cos_pi, Real.sin_pi,
        Real.cos_two_pi, Real.sin_two_pi, Triangle.normal, Cylinder.bottom]
      simp only [Cylinder.ofRadius, vec.add_def, vec.sub_def, vec.smul_def, vec.cross_def,
        ne_eq, vec.mk.injEq]
      refine ⟨?_, ?_⟩ <;> rintro ⟨_, hy, _⟩ <;> refine hrh ?_ <;>
        linear_combination (-1 / 2 : ℝ) * hy
  · have all : ∀ t ∈ ((Cylinder.ofRadius c r h 1).addToPlot Real.arctan Real.cos Real.sin
        STL.empty).triangles, t.normal = ⟨0, 0, 0⟩ := by
      rw [Cylinder.addToPlot_steps, c1]
      simp only [STL.empty, List.nil_append, List.flatMap_cons, List.flatMap_nil,
        List.append_nil, Cylinder.stepTriangles, Cylinder.sideTriangles, faceTriangles,
        List.cons_append, List.mem_cons, List.mem_nil_iff, or_false, forall_eq_or_imp,
        forall_eq, Cylinder.bottomCap, Cylinder.topCap, Cylinder.previous, Cylinder.point, d1,
        if_true, Int.cast_one, one_mul, Real.cos_two_pi, Real.sin_two_pi, Triangle.normal,
        Cylinder.top, Cylinder.bottom]
      simp only [Cylinder.ofRadius, vec.add_def, vec.sub_def, vec.smul_def, vec.cross_def,
        vec.mk.injEq]
      and_intros <;> ring1
    refine ⟨?_, fun t ht => ⟨all t ht, by rw [all t ht, len_zero_vec]⟩⟩
    rw [Cylinder.addToPlot_steps, c1]
    simp [STL.empty, Cylinder.stepTriangles, Cylinder.sideTriangles, faceTriangles]

/-- Witness for C18: radius 20 and height 30; with two faces the first bottom cap is
degenerate, with one face the whole mesh is. -/
theorem cylinder_few_faces_degenerate_witness :
    (0 : ℝ) < 20 ∧ (0 : ℝ) < 30
      ∧ (∀ t ∈ ((Cylinder.ofRadius (⟨0, 0, 0⟩ : vec ℝ) 20 30 1).addToPlot Real.arctan Real.cos
            Real.sin STL.empty).triangles,
          t.normal = ⟨0, 0, 0⟩ ∧ len Real.sqrt t.normal = 0) :=
  ⟨by norm_num, by norm_num,
   (cylinder_few_faces_degenerate ⟨0, 0, 0⟩ 20 30 (by norm_num) (by norm_num)).2.2⟩

/-! ### Shared lemmas on the surface of the cube -/

/-- The twelve triangles of a cube are the index triangles read on its corners. -/
theorem Cube.triangles_eq_indices {α : Type} [Field α] (C : Cube α) :
    (C.addToPlot STL.empty).triangles
      = cubeTriangleIndices.map
          (fun t => (⟨C.cornerAt t.1, C.cornerAt t.2.1, C.cornerAt t.2.2⟩ : Triangle α)) := by
  rw [Cube.addToPlot_faces]
  rfl

/-- The directed edges of a cube are the index edges read on its corners. -/
theorem Cube.edges_eq_indices {α : Type} [Field α] (C : Cube α) :
    (C.addToPlot STL.empty).triangles.flatMap Triangle.edges
      = cubeEdgeIndices.map (fun e => (C.cornerAt e.1, C.cornerAt e.2)) := by
  rw [Cube.triangles_eq_indices]
  rfl

/-- In the index mesh every directed edge occurs exactly once and so does its reverse. -/
theorem cubeEdgeIndices_closed :
    cubeEdgeIndices.length = 36
      ∧ ∀ e ∈ cubeEdgeIndices,
          cubeEdgeIndices.count e = 1 ∧ cubeEdgeIndices.count (e.2, e.1) = 1 := by
  decide

/-- The eight corners of a cube with non-zero side length are pairwise distinct. -/
theorem Cube.cornerAt_injective (c : vec ℝ) (L : ℝ) (hL : L ≠ 0) :
    Function.Injective (Cube.ofLength c L).cornerAt := by
  intro i j h
  fin_cases i <;> fin_cases j <;>
    first
    | rfl
    | (exfalso
       simp only [Cube.cornerAt, Cube.ofLength_corners, vec.mk.injEq] at h
       obtain ⟨hx, hy, hz⟩ := h
       exact hL (by linarith))

/-- Counting an image in the image of a list under an injective map. -/
theorem count_map_of_inj {α β : Type} [BEq α] [LawfulBEq α] [BEq β] [LawfulBEq β] (f : α → β)
    (hf : Function.Injective f) (l : List α) (x : α) : (l.map f).count (f x) = l.count x := by
  induction l with
  | nil => simp
  | cons b l ih =>
    simp only [List.map_cons, List.count_cons, ih]
    by_cases h : b = x
    · simp [h]
    · have h2 : f b ≠ f x := fun e => h (hf e)
      simp [h, h2]

/-! ### The claim on the surface of the cube -/

/-- C17, over exact real arithmetic: for every centre and every `L != 0` the 12 triangles of
`Cube(c, L)` form a closed,
consistently oriented surface: there are 36 directed edges `v1 -> v2`, `v2 -> v3`, `v3 -> v1`,
every one of them occurs exactly once, and its reverse occurs exactly once as well. -/
theorem cube_surface_closed (c : vec ℝ) (L : ℝ) (hL : L ≠ 0) :
    (((Cube.ofLength c L).addToPlot STL.empty).triangles.flatMap Triangle.edges).length = 36
      ∧ ∀ e ∈ ((Cube.ofLength c L).addToPlot STL.empty).triangles.flatMap Triangle.edges,
          (((Cube.ofLength c L).addToPlot STL.empty).triangles.flatMap Triangle.edges).count e
              = 1
            ∧ (((Cube.ofLength c L).addToPlot STL.empty).triangles.flatMap
                Triangle.edges).count (e.2, e.1) = 1 := by
  have hinj : Function.Injective
      (fun e : Fin 8 × Fin 8 =>
        ((Cube.ofLength c L).cornerAt e.1, (Cube.ofLength c L).cornerAt e.2)) := by
    intro a b h
    simp only [Prod.mk.injEq] at h
    exact Prod.ext (Cube.cornerAt_injective c L hL h.1) (Cube.cornerAt_injective c L hL h.2)
  rw [Cube.edges_eq_indices]
  refine ⟨by rw [List.length_map]; exact cubeEdgeIndices_closed.1, ?_⟩
  intro e he
  obtain ⟨i, hi, rfl⟩ := List.mem_map.1 he
  refine ⟨?_, ?_⟩
  · have hr := count_map_of_inj _ hinj cubeEdgeIndices i
    simp only at hr
    rw [hr]
    exact (cubeEdgeIndices_closed.2 i hi).1
  · have hr := count_map_of_inj _ hinj cubeEdgeIndices (i.2, i.1)
    simp only at hr
    rw [hr]
    exact (cubeEdgeIndices_closed.2 i hi).2

/-- Witness for C17: the cube of `main`, side length 25. -/
theorem cube_surface_closed_witness :
    (25 : ℝ) ≠ 0
      ∧ (((Cube.ofLength (⟨0, 0, 0⟩ : vec ℝ) 25).addToPlot STL.empty).triangles.flatMap
          Triangle.edges).length = 36 :=
  ⟨by norm_num, (cube_surface_closed ⟨0, 0, 0⟩ 25 (by norm_num)).1⟩

/-! ### The claims on the program's doubles

The theorems above that are stated over the reals describe exact arithmetic. On the `double`
of the program the same definitions round after every operation, and the statements below
evaluate them at inputs where the rounding shows. -/

/-- The unit normals `draw` computes for the cube of `main` on doubles; the sixth has the
component `-0`. -/
theorem main_normals_double :
    (Driver.mesh id id id : STL double).triangles.map (fun t => t.unitNormal double.sqrt)
      = [⟨0, -1, 0⟩, ⟨0, -1, 0⟩, ⟨1, 0, 0⟩, ⟨1, 0, 0⟩, ⟨0, 1, 0⟩, ⟨0, 1, -0⟩,
         ⟨-1, 0, 0⟩, ⟨-1, 0, 0⟩, ⟨0, 0, -1⟩, ⟨0, 0, -1⟩, ⟨0, 0, 1⟩, ⟨0, 0, 1⟩] := by
  decide!

/-- C6 fails as stated on the program's doubles: for `Cube((1e17,0,0), 1)`, with `L = 1 > 0`,
the corner offsets are absorbed by the centre, the first triangle has `v1 = v2`, its normal
is `(0,0,0)` and the dot product with `centroid - c` is not positive. -/
theorem cube_normals_absorbed :
    (0 : double) < 1
      ∧ ((Cube.ofLength (⟨1e17, 0, 0⟩ : vec double) 1).addToPlot STL.empty).triangles.head?
          = some ⟨⟨1e17, -0.5, -0.5⟩, ⟨1e17, -0.5, -0.5⟩, ⟨1e17, -0.5, 0.5⟩⟩
      ∧ (Triangle.mk (⟨1e17, -0.5, -0.5⟩ : vec double) ⟨1e17, -0.5, -0.5⟩
          ⟨1e17, -0.5, 0.5⟩).normal = ⟨0, 0, 0⟩
      ∧ ¬ ((0 : double) < vec.dot
          (Triangle.mk (⟨1e17, -0.5, -0.5⟩ : vec double) ⟨1e17, -0.5, -0.5⟩
            ⟨1e17, -0.5, 0.5⟩).normal
          ((Triangle.mk (⟨1e17, -0.5, -0.5⟩ : vec double) ⟨1e17, -0.5, -0.5⟩
            ⟨1e17, -0.5, 0.5⟩).centroid - ⟨1e17, 0, 0⟩)) := by
  decide!

/-- C17 fails as stated on the program's doubles: for `Cube((1e17,0,0), 1)`, with `L != 0`,
the first directed edge goes from `(1e17,-0.5,-0.5)` to itself and occurs twice among the 36
directed edges. -/
theorem cube_edges_collapse :
    (1 : double) ≠ 0
      ∧ (((Cube.ofLength (⟨1e17, 0, 0⟩ : vec double) 1).addToPlot STL.empty).triangles.flatMap
          Triangle.edges).length = 36
      ∧ (((Cube.ofLength (⟨1e17, 0, 0⟩ : vec double) 1).addToPlot STL.empty).triangles.flatMap
          Triangle.edges).head?
        = some ((⟨1e17, -0.5, -0.5⟩ : vec double), (⟨1e17, -0.5, -0.5⟩ : vec double))
      ∧ (((Cube.ofLength (⟨1e17, 0, 0⟩ : vec double) 1).addToPlot STL.empty).triangles.flatMap
          Triangle.edges).count
            ((⟨1e17, -0.5, -0.5⟩ : vec double), (⟨1e17, -0.5, -0.5⟩ : vec double)) = 2 := by
  decide!

/-- C8 fails as stated on the program's doubles: for `Cylinder((0,0,50), 1, 0.1, 4)` the top
centre, third vertex of every top-cap triangle, has `z = (50 - 0.5 * 0.1) + 0.1`, which rounds
to `50.050000000000004`, while `c.z + h/2` is `50.05`. -/
theorem cylinder_top_height_rounded :
    (1 : Int) ≤ (Cylinder.ofRadius (⟨0, 0, 50⟩ : vec double) 1 0.1 4).nface
      ∧ (Cylinder.ofRadius (⟨0, 0, 50⟩ : vec double) 1 0.1 4).top.z = 50.050000000000004
      ∧ (50 : double) + 0.1 / 2 = 50.05
      ∧ (Cylinder.ofRadius (⟨0, 0, 50⟩ : vec double) 1 0.1 4).top.z ≠ 50 + 0.1 / 2
      ∧ ∀ (atan cos sin : double → double) (k : Int),
          ((Cylinder.ofRadius (⟨0, 0, 50⟩ : vec double) 1 0.1 4).topCap atan cos sin k).v3
            = (Cylinder.ofRadius (⟨0, 0, 50⟩ : vec double) 1 0.1 4).top :=
  ⟨by decide!, by decide!, by decide!, by decide!, fun _ _ _ _ => rfl⟩

/-- C13 fails as stated on the program's doubles: for `cylinder2` of `main`, radial vector
`(20,20,0)` and axial vector `(20,-20,0)`, both non-zero and perpendicular, the derived second
radial vector has length `28.284271247461898` and the first `28.284271247461902`. -/
theorem cylinder_second_radial_rounded :
    (⟨20, 20, 0⟩ : vec double) ≠ ⟨0, 0, 0⟩ ∧ (⟨20, -20, 0⟩ : vec double) ≠ ⟨0, 0, 0⟩
      ∧ vec.dot (⟨20, 20, 0⟩ : vec double) ⟨20, -20, 0⟩ = 0
      ∧ len double.sqrt (Cylinder.ofAxes double.sqrt (⟨50, 50, 0⟩ : vec double) ⟨20, 20, 0⟩
          ⟨20, -20, 0⟩ 30).side2 = 28.284271247461898
      ∧ len double.sqrt (⟨20, 20, 0⟩ : vec double) = 28.284271247461902
      ∧ len double.sqrt (Cylinder.ofAxes double.sqrt (⟨50, 50, 0⟩ : vec double) ⟨20, 20, 0⟩
          ⟨20, -20, 0⟩ 30).side2 ≠ len double.sqrt (⟨20, 20, 0⟩ : vec double) := by
  decide!

/-- C15 fails as stated on the program's doubles: for
`Cube((0.7,0.3,0.9), (0.1,0.2,0.3), (0.2,0.4,0.6))`, with `e1` non-zero and `e2 = 2 * e1`
parallel to it (their cross product is zero), the corner sums round and the tenth triangle has
the cross product `(-2^-55, 2^-55, -2^-57)`, not the zero vector. -/
theorem degenerate_cube_rounded :
    (⟨0.1, 0.2, 0.3⟩ : vec double) ≠ ⟨0, 0, 0⟩
      ∧ (2 : double) * (⟨0.1, 0.2, 0.3⟩ : vec double) = ⟨0.2, 0.4, 0.6⟩
      ∧ (⟨0.1, 0.2, 0.3⟩ : vec double) * ⟨0.2, 0.4, 0.6⟩ = ⟨0, 0, 0⟩
      ∧ (((Cube.ofSides double.sqrt (⟨0.7, 0.3, 0.9⟩ : vec double) ⟨0.1, 0.2, 0.3⟩
            ⟨0.2, 0.4, 0.6⟩).addToPlot STL.empty).triangles.map Triangle.normal)[9]?
          = some ⟨.finite true 4503599627370496 (-107), .finite false 4503599627370496 (-107),
              .finite true 4503599627370496 (-109)⟩
      ∧ (⟨.finite true 4503599627370496 (-107), .finite false 4503599627370496 (-107),
              .finite true 4503599627370496 (-109)⟩ : vec double) ≠ ⟨0, 0, 0⟩ := by
  decide!

/-- The object `cube2` of `main` on doubles: the side vectors `(20,20,0)` and `(20,-20,0)` are
perpendicular and of equal length `28.284271247461902`; the third side the constructor
derives has `z = -28.284271247461898`. -/
theorem cube2_third_side_double :
    (Cube.ofSides double.sqrt (⟨50, 0, 0⟩ : vec double) ⟨20, 20, 0⟩ ⟨20, -20, 0⟩).L
        = 28.284271247461902
      ∧ (Cube.ofSides double.sqrt (⟨50, 0, 0⟩ : vec double) ⟨20, 20, 0⟩ ⟨20, -20, 0⟩).side3
        = ⟨0, 0, -28.284271247461898⟩ := by
  decide!
